import Mathlib

/-!
Verification of the `puckpy.backends.nhlapi` module (a thin client over the
NHL stats REST API).  The Python source is shallowly embedded: JSON values
become an inductive type, Python `dict`s become association lists with
insertion-order update semantics, HTTP calls become a `fetch` parameter
mapping a URL to a `Response`, raised exceptions become `Except` errors,
and a `pandas` frame indexed by date becomes a list of (parsed date, row)
pairs.
-/

/-- JSON values.  `num` covers the integer payload fields used by the code
(team ids, player ids, game counters); `obj` keeps the key order of the
underlying Python dict. -/
inductive Json where
  | null : Json
  | bool : Bool → Json
  | num : Int → Json
  | str : String → Json
  | arr : List Json → Json
  | obj : List (String × Json) → Json

/-- `true` exactly on JSON dictionaries (`isinstance(v, dict)` in the
source). -/
def Json.isObj : Json → Bool
  | Json.obj _ => true
  | _ => false

/-- A Python dict embedded as an association list in insertion order. -/
abbrev JDict := List (String × Json)

/-- Python `d[k] = v`: if the key is present its value is replaced in
place, otherwise the pair is appended at the end. -/
def dinsert {α : Type} : List (String × α) → String → α → List (String × α)
  | [], k, v => [(k, v)]
  | (k', v') :: rest, k, v =>
    if k' = k then (k, v) :: rest else (k', v') :: dinsert rest k v

/-- Python `d.update(e)`: insert every pair of `e` into `d`, in order. -/
def dupdate {α : Type} (d e : List (String × α)) : List (String × α) :=
  e.foldl (fun acc kv => dinsert acc kv.1 kv.2) d

/-- Python `d[k]` / `d.get(k)` as an `Option`. -/
def dlookup {α : Type} : List (String × α) → String → Option α
  | [], _ => none
  | (k', v) :: rest, k => if k' = k then some v else dlookup rest k

/-- Dropping a column: every pair whose key equals `k` is removed
(`pandas.set_index` removes the chosen column from the table). -/
def dremove {α : Type} (d : List (String × α)) (k : String) : List (String × α) :=
  d.filter (fun kv => kv.1 != k)

/-- Monadic map over a list, used for Python `for` loops whose body may
raise (embedded in `Except`) or fail (embedded in `Option`). -/
def listMapM {m : Type → Type} [Monad m] {α β : Type} (f : α → m β) : List α → m (List β)
  | [] => pure []
  | x :: xs => do
    let y ← f x
    let ys ← listMapM f xs
    pure (y :: ys)

/-- The key written by `unroll_json`: `f"{prefix}_{k}"` when a prefix is
given, the raw key otherwise. -/
def pkey : Option String → String → String
  | some p, k => p ++ "_" ++ k
  | none, k => k

/-- The recursive worker of `unroll_json` (nhlapi.py lines 73-84).
`out` is the `output` dict being accumulated; for each non-blacklisted
key, a dict value is recursively unrolled (with the joined key as the new
prefix) and merged with `output.update(...)`, and any other value is
stored under the joined key. -/
def unrollItems (blacklist : List String) : Option String → JDict → JDict → JDict
  | _, out, [] => out
  | pfx, out, (k, v) :: rest =>
    if k ∈ blacklist then unrollItems blacklist pfx out rest
    else
      match v with
      | Json.obj sub =>
        unrollItems blacklist pfx
          (dupdate out (unrollItems blacklist (some (pkey pfx k)) [] sub)) rest
      | _ => unrollItems blacklist pfx (dinsert out (pkey pfx k) v) rest
termination_by _ _ l => sizeOf l
decreasing_by all_goals simp_wf <;> omega

/-- `unroll_json(content, blacklist=None, prefix=None)` (nhlapi.py lines
50-84).  `none` for the blacklist means `[]`, as in the source. -/
def unroll_json (content : JDict) (blacklist : Option (List String))
    (pfx : Option String) : JDict :=
  unrollItems (blacklist.getD []) pfx [] content

/-- Specification-side companion of `unroll_json`: the (joined key, value)
pairs of all non-dict leaves whose key path avoids the blacklist, in
depth-first traversal order. -/
def leavesItems (blacklist : List String) : Option String → JDict → JDict
  | _, [] => []
  | pfx, (k, v) :: rest =>
    if k ∈ blacklist then leavesItems blacklist pfx rest
    else
      match v with
      | Json.obj sub =>
        leavesItems blacklist (some (pkey pfx k)) sub ++ leavesItems blacklist pfx rest
      | _ => (pkey pfx k, v) :: leavesItems blacklist pfx rest
termination_by _ l => sizeOf l
decreasing_by all_goals simp_wf <;> omega

/-- The key used by the inline flattening loop of `get_player_games_stats`
(nhlapi.py line 214): `f"{k1}_{k2}" if k1 != "stat" else k2`. -/
def statKey (k1 k2 : String) : String :=
  if k1 ≠ "stat" then k1 ++ "_" ++ k2 else k2

/-- One iteration of the outer loop of `get_player_games_stats` (lines
211-217): a dict value is flattened one level with `statKey`, any other
value is stored under its own key. -/
def gameStep (record : JDict) (kv : String × Json) : JDict :=
  match kv with
  | (k1, Json.obj sub) =>
    sub.foldl (fun r kv2 => dinsert r (statKey k1 kv2.1) kv2.2) record
  | (k1, v1) => dinsert record k1 v1

/-- The per-game record built by `get_player_games_stats` (lines 209-218)
from one element of `splits`. -/
def flatten_game_stats (game_stats : JDict) : JDict :=
  game_stats.foldl gameStep []

/-- Specification-side companion of `flatten_game_stats`: the pairs that
the two-level loop writes, in order, before dict-update collisions are
resolved. -/
def gameRecordPairs : JDict → JDict
  | [] => []
  | (k1, Json.obj sub) :: rest =>
    sub.map (fun kv2 => (statKey k1 kv2.1, kv2.2)) ++ gameRecordPairs rest
  | (k1, v1) :: rest => (k1, v1) :: gameRecordPairs rest

/-- Decimal digit characters, used to model Python `str(int)`. -/
def digitChar : Nat → Char
  | 0 => '0'
  | 1 => '1'
  | 2 => '2'
  | 3 => '3'
  | 4 => '4'
  | 5 => '5'
  | 6 => '6'
  | 7 => '7'
  | 8 => '8'
  | 9 => '9'
  | _ => '?'

/-- Digit accumulator for `pyStrNat`; the fuel argument (instantiated with
the number itself) only makes the recursion structural. -/
def natStrGo : Nat → Nat → List Char → List Char
  | 0, n, acc => digitChar (n % 10) :: acc
  | fuel + 1, n, acc =>
    if n < 10 then digitChar (n % 10) :: acc
    else natStrGo fuel (n / 10) (digitChar (n % 10) :: acc)

/-- Python `str(n)` for a natural number: its decimal digits. -/
def pyStrNat (n : Nat) : String :=
  String.mk (natStrGo n n [])

/-- Python `str(i)` for an int: a minus sign followed by the digits when
negative. -/
def pyStrInt : Int → String
  | Int.ofNat m => pyStrNat m
  | Int.negSucc m => "-" ++ pyStrNat (m + 1)

/-- Python `s[:n]` on code points. -/
def strTake (s : String) (n : Nat) : String :=
  String.mk (s.data.take n)

/-- Python `s[n:]` on code points. -/
def strDrop (s : String) (n : Nat) : String :=
  String.mk (s.data.drop n)

/-- Whether a path component begins with `'/'` (the case where
`os.path.join` discards everything before it). -/
def startsWithSlash (s : String) : Bool :=
  match s.data with
  | [] => false
  | c :: _ => c == '/'

/-- Whether a path ends with `'/'` (the case where `os.path.join` does not
add a separator). -/
def endsWithSlash (s : String) : Bool :=
  match s.data.getLast? with
  | some c => c == '/'
  | none => false

/-- `os.path.join(a, b)` (POSIX, two components): `b` wins if absolute,
otherwise it is appended, with a `'/'` separator unless `a` is empty or
already ends in `'/'`. -/
def path_join (a b : String) : String :=
  if startsWithSlash b then b
  else if a == "" || endsWithSlash a then a ++ b
  else a ++ "/" ++ b

/-- `BASE_URL` (nhlapi.py line 21). -/
def BASE_URL : String := "https://statsapi.web.nhl.com/api/v1/"

/-- `get_team_url` (line 24). -/
def get_team_url : String := path_join BASE_URL "teams"

/-- `get_roster_url` (lines 25-27). -/
def get_roster_url (team_id : Int) : String :=
  path_join get_team_url (pyStrInt team_id ++ "?expand=team.roster")

/-- `get_player_url` (lines 30-32). -/
def get_player_url (player_id : Int) : String :=
  path_join BASE_URL ("people/" ++ pyStrInt player_id)

/-- `get_player_games_stats_url` (lines 33-35). -/
def get_player_games_stats_url (player_id : Int) (season : String) : String :=
  path_join (get_player_url player_id) ("stats?stats=gameLog&season=" ++ season)

/-- `get_schedule_url` (line 38). -/
def get_schedule_url : String := path_join BASE_URL "schedule"

/-- `get_schedule_for_team_url` (lines 39-42): embeds `season[:4]` in
`startDate` and `season[4:]` in `endDate`, both with month-day `-09-01`. -/
def get_schedule_for_team_url (team_id : Int) (season : String) : String :=
  path_join get_schedule_url
    ("?teamId=" ++ pyStrInt team_id ++ "&startDate=" ++ strTake season 4 ++
      "-09-01&endDate=" ++ strDrop season 4 ++ "-09-01")

/-- An HTTP response: its status code and (already JSON-decoded) body. -/
structure Response where
  status_code : Nat
  json : Json

/-- The exceptions the module can raise: `HTTPError` from `get`,
`AttributeError` from the parameter validation of `find_player_id`, and
`shape` for the `KeyError`/`IndexError`/`TypeError` family raised when a
response does not have the shape the code indexes into. -/
inductive ApiError where
  | http : Nat → ApiError
  | attr : String → ApiError
  | shape : ApiError
deriving DecidableEq

/-- `get(url)` (nhlapi.py lines 92-108), applied to the response the
environment returns for the url: raise `HTTPError` unless the status code
is exactly 200, otherwise hand back the decoded JSON body. -/
def get (res : Response) : Except ApiError Json :=
  if res.status_code ≠ 200 then Except.error (ApiError.http res.status_code)
  else Except.ok res.json

/-- Python `j["k"]`-style field access on a JSON object. -/
def jField (j : Json) (k : String) : Except ApiError Json :=
  match j with
  | Json.obj o =>
    match dlookup o k with
    | some v => Except.ok v
    | none => Except.error ApiError.shape
  | _ => Except.error ApiError.shape

/-- Require a JSON array (the code then iterates or indexes into it). -/
def jArr : Json → Except ApiError (List Json)
  | Json.arr a => Except.ok a
  | _ => Except.error ApiError.shape

/-- Require a JSON object (the code then iterates `.items()`). -/
def jObj : Json → Except ApiError JDict
  | Json.obj o => Except.ok o
  | _ => Except.error ApiError.shape

/-- Require a JSON string. -/
def jStr : Json → Except ApiError String
  | Json.str s => Except.ok s
  | _ => Except.error ApiError.shape

/-- Require a JSON integer. -/
def jInt : Json → Except ApiError Int
  | Json.num n => Except.ok n
  | _ => Except.error ApiError.shape

/-- Python `lst[0]` (`IndexError` when empty). -/
def jHead {α : Type} : List α → Except ApiError α
  | [] => Except.error ApiError.shape
  | x :: _ => Except.ok x

/-- `fuzzywuzzy.process.extract(query, choices, limit=limit)`, keeping the
matched names: the choices ranked by the (abstracted) fuzzy score against
the query, best first, truncated to `limit`. -/
def extract (score : String → String → Nat) (query : String)
    (choices : List String) (limit : Nat) : List String :=
  (choices.insertionSort (fun a b => score query b ≤ score query a)).take limit

/-- Building the returned `pd.Series` from a name-to-id dict: the top-3
extracted names as index, `d[name]` as data (nhlapi.py lines 134-138 and
175-179). -/
def series_from (score : String → String → Nat) (query : String)
    (d : List (String × Int)) : List (String × Int) :=
  (extract score query (d.map Prod.fst) 3).map (fun n => (n, (dlookup d n).getD 0))

/-- The `{t["name"]: t["id"] for t in get(url)["teams"]}` dict of
`find_team_id` (lines 131-133), built from the response to the teams
url. -/
def teams_of (fetch : String → Response) : Except ApiError (List (String × Int)) := do
  let body ← get (fetch get_team_url)
  let ts ← jArr (← jField body "teams")
  let entries ← listMapM (fun t => do
    let name ← jStr (← jField t "name")
    let tid ← jInt (← jField t "id")
    Except.ok (name, tid)) ts
  Except.ok (entries.foldl (fun d kv => dinsert d kv.1 kv.2) [])

/-- `find_team_id` (nhlapi.py lines 116-138). -/
def find_team_id (score : String → String → Nat) (fetch : String → Response)
    (team_name : String) : Except ApiError (List (String × Int)) :=
  (teams_of fetch).map (series_from score team_name)

/-- The `{p["person"]["fullName"]: p["person"]["id"] for p in roster}`
dict of `find_player_id` (lines 172-174), built from the response to the
roster url of the given team. -/
def players_of (fetch : String → Response) (team_id : Int) :
    Except ApiError (List (String × Int)) := do
  let body ← get (fetch (get_roster_url team_id))
  let ts ← jArr (← jField body "teams")
  let t0 ← jHead ts
  let roster ← jArr (← jField (← jField t0 "roster") "roster")
  let entries ← listMapM (fun p => do
    let person ← jField p "person"
    let name ← jStr (← jField person "fullName")
    let pid ← jInt (← jField person "id")
    Except.ok (name, pid)) roster
  Except.ok (entries.foldl (fun d kv => dinsert d kv.1 kv.2) [])

/-- The body of `find_player_id` after its parameter validation (lines
170-179): resolve the team id (taking `find_team_id(team_name).iloc[0]`
when only the name is given), then rank the roster of that team. -/
def player_lookup (score : String → String → Nat) (fetch : String → Response)
    (player_name : String) (team_id : Option Int) (team_name : Option String) :
    Except ApiError (List (String × Int)) := do
  let tid ← match team_id with
    | some t => Except.ok t
    | none => do
      let s ← find_team_id score fetch (team_name.getD "")
      let p ← jHead s
      Except.ok p.2
  let d ← players_of fetch tid
  Except.ok (series_from score player_name d)

/-- `find_player_id` (nhlapi.py lines 141-179): `AttributeError` when the
mutually-exclusive `team_id` / `team_name` are both given or both
missing, then the roster lookup. -/
def find_player_id (score : String → String → Nat) (fetch : String → Response)
    (player_name : String) (team_id : Option Int) (team_name : Option String) :
    Except ApiError (List (String × Int)) :=
  if team_id.isSome && team_name.isSome then
    Except.error (ApiError.attr "You need to give either team_id or team_name.")
  else if team_id.isNone && team_name.isNone then
    Except.error (ApiError.attr "You need to give either team_id or team_name.")
  else player_lookup score fetch player_name team_id team_name

/-- The numeric value of a decimal digit character, `none` on any other
character. -/
def charDigit (c : Char) : Option Nat :=
  if 48 ≤ c.toNat && c.toNat ≤ 57 then some (c.toNat - 48) else none

/-- Reads a run of decimal digits left to right, failing on a non-digit. -/
def digitsVal : List Char → Nat → Option Nat
  | [], acc => some acc
  | c :: cs, acc =>
    match charDigit c with
    | some d => digitsVal cs (acc * 10 + d)
    | none => none

/-- Splits a character list on `'-'`. -/
def splitDash : List Char → List (List Char)
  | [] => [[]]
  | c :: cs =>
    if c = '-' then [] :: splitDash cs
    else
      match splitDash cs with
      | [] => [[c]]
      | p :: ps => (c :: p) :: ps

/-- `pd.to_datetime` on one `"YYYY-MM-DD"` string, encoded as the natural
number `y * 10000 + m * 100 + d` (an order-embedding of dates).  Strings
of any other shape fail, as `to_datetime` raises on them; calendar-level
day-of-month validity beyond the `1..31` range is abstracted. -/
def parseDate (s : String) : Option Nat :=
  match splitDash s.data with
  | [y, m, d] =>
    if y.length == 4 && m.length == 2 && d.length == 2 then
      match digitsVal y 0, digitsVal m 0, digitsVal d 0 with
      | some yn, some mn, some dn =>
        if 1 ≤ mn && mn ≤ 12 && 1 ≤ dn && dn ≤ 31 then
          some (yn * 10000 + mn * 100 + dn)
        else none
      | _, _, _ => none
    else none
  | _ => none

/-- Dates in the payload are JSON strings; anything else fails to parse. -/
def parseDateJson : Json → Option Nat
  | Json.str s => parseDate s
  | _ => none

/-- One row of `data.set_index("date")` with `pd.to_datetime` applied to
the index: the parsed `"date"` field becomes the index value and the
column is removed from the row. -/
def rowIndexed (r : JDict) : Option (Nat × JDict) :=
  match dlookup r "date" with
  | some v =>
    match parseDateJson v with
    | some n => some (n, dremove r "date")
    | none => none
  | none => none

/-- Index comparison used by `sort_index` on the embedded frame. -/
def frameLe (a b : Nat × JDict) : Prop := a.1 ≤ b.1

instance : DecidableRel frameLe := fun a b => Nat.decLe a.1 b.1

instance : IsTotal (Nat × JDict) frameLe := ⟨fun a b => Nat.le_total a.1 b.1⟩

instance : IsTrans (Nat × JDict) frameLe := ⟨fun _ _ _ => Nat.le_trans⟩

/-- The common tail of both data-fetching functions (nhlapi.py lines
219-223 and 256-260): `pd.DataFrame(records)`, `set_index("date")`,
`pd.to_datetime` on the index, `sort_index()`.  Fails when the record
list is empty (`set_index` raises `KeyError` on an empty frame) or when
some record lacks a parseable string `"date"` field. -/
def make_frame (records : List JDict) : Option (List (Nat × JDict)) :=
  if records.isEmpty then none
  else
    match listMapM rowIndexed records with
    | some rows => some (rows.insertionSort frameLe)
    | none => none

/-- The parsed `"date"` field of every record, in record order. -/
def recordDates (records : List JDict) : Option (List Nat) :=
  listMapM (fun r =>
    match dlookup r "date" with
    | some v => parseDateJson v
    | none => none) records

/-- `make_frame` as a step of the `Except`-embedded pipelines. -/
def frameExcept (records : List JDict) : Except ApiError (List (Nat × JDict)) :=
  match make_frame records with
  | some f => Except.ok f
  | none => Except.error ApiError.shape

/-- The flattened per-game records of `get_player_games_stats` (lines
206-218): `get(url)["stats"][0]["splits"]`, each split flattened two
levels with the `stat` special case. -/
def playerRecords (fetch : String → Response) (player_id : Int) (season : String) :
    Except ApiError (List JDict) := do
  let body ← get (fetch (get_player_games_stats_url player_id season))
  let stats ← jArr (← jField body "stats")
  let s0 ← jHead stats
  let splits ← jArr (← jField s0 "splits")
  let gss ← listMapM jObj splits
  Except.ok (gss.map flatten_game_stats)

/-- `get_player_games_stats` (nhlapi.py lines 187-223). -/
def get_player_games_stats (fetch : String → Response) (player_id : Int)
    (season : String) : Except ApiError (List (Nat × JDict)) := do
  let records ← playerRecords fetch player_id season
  frameExcept records

/-- The schedule records of `get_team_games_schedule` (lines 248-255):
for every entry of `get(url)["dates"]` and every game in its `"games"`,
the record `{"date": schedule["date"]}` updated with `unroll_json(games)`. -/
def scheduleRecords (fetch : String → Response) (team_id : Int) (season : String) :
    Except ApiError (List JDict) := do
  let body ← get (fetch (get_schedule_for_team_url team_id season))
  let dates ← jArr (← jField body "dates")
  let recss ← listMapM (fun sched => do
    let d ← jField sched "date"
    let games ← jArr (← jField sched "games")
    listMapM (fun g => do
      let go ← jObj g
      Except.ok (dupdate [("date", d)] (unroll_json go none none))) games) dates
  Except.ok recss.flatten

/-- `get_team_games_schedule` (nhlapi.py lines 226-260). -/
def get_team_games_schedule (fetch : String → Response) (team_id : Int)
    (season : String) : Except ApiError (List (Nat × JDict)) := do
  let records ← scheduleRecords fetch team_id season
  frameExcept records

/-- An `Except` computation that is not an `AttributeError`: the shape of
everything the module does after `find_player_id`'s parameter check. -/
def noAttr {β : Type} (x : Except ApiError β) : Prop :=
  ∀ m, x ≠ Except.error (ApiError.attr m)

-- ===================================================================
-- Concrete fixtures used by witnesses and counterexamples.
-- ===================================================================

/-- A degenerate fuzzy scorer (every candidate ties); concrete witnesses
and counterexamples below hold for any scorer unless stated otherwise. -/
def zeroScore : String → String → Nat := fun _ _ => 0

/-- A teams response listing three teams. -/
def teamsBody3 : Json :=
  Json.obj [("teams", Json.arr
    [Json.obj [("name", Json.str "Anaheim Ducks"), ("id", Json.num 24)],
      Json.obj [("name", Json.str "Boston Bruins"), ("id", Json.num 6)],
      Json.obj [("name", Json.str "Montreal Canadiens"), ("id", Json.num 8)]])]

/-- Environment answering every request with `teamsBody3`. -/
def teamsFetch3 : String → Response := fun _ => { status_code := 200, json := teamsBody3 }

/-- A teams response listing only two teams. -/
def teamsBody2 : Json :=
  Json.obj [("teams", Json.arr
    [Json.obj [("name", Json.str "Montreal Canadiens"), ("id", Json.num 8)],
      Json.obj [("name", Json.str "Toronto Maple Leafs"), ("id", Json.num 10)]])]

/-- Environment answering every request with `teamsBody2`. -/
def teamsFetch2 : String → Response := fun _ => { status_code := 200, json := teamsBody2 }

/-- A roster response listing three players. -/
def rosterBody3 : Json :=
  Json.obj [("teams", Json.arr
    [Json.obj [("roster", Json.obj [("roster", Json.arr
      [Json.obj [("person", Json.obj
        [("fullName", Json.str "Carey Price"), ("id", Json.num 8471679)])],
        Json.obj [("person", Json.obj
          [("fullName", Json.str "Brendan Gallagher"), ("id", Json.num 8475848)])],
        Json.obj [("person", Json.obj
          [("fullName", Json.str "Nick Suzuki"), ("id", Json.num 8480018)])]])])]])]

/-- Environment answering every request with `rosterBody3`. -/
def rosterFetch3 : String → Response := fun _ => { status_code := 200, json := rosterBody3 }

/-- Environment for the C9 witness: the teams list at the teams url, the
roster of the best-matching team everywhere else. -/
def teamThenRosterFetch : String → Response := fun u =>
  if u = get_team_url then { status_code := 200, json := teamsBody3 }
  else { status_code := 200, json := rosterBody3 }

/-- A game-log response with two games on distinct dates, carrying a
`stat` dict and a nested `game` dict. -/
def gameLogBody : Json :=
  Json.obj [("stats", Json.arr
    [Json.obj [("splits", Json.arr
      [Json.obj [("date", Json.str "2018-10-04"),
        ("stat", Json.obj [("goals", Json.num 1), ("assists", Json.num 2)]),
        ("opponent", Json.obj [("name", Json.str "Boston Bruins")])],
        Json.obj [("date", Json.str "2018-10-03"),
          ("stat", Json.obj [("goals", Json.num 0), ("assists", Json.num 1)]),
          ("opponent", Json.obj [("name", Json.str "Anaheim Ducks")])]])]])]

/-- Environment answering every request with `gameLogBody`. -/
def gameLogFetch : String → Response := fun _ => { status_code := 200, json := gameLogBody }

/-- A game-log response with two games sharing the same date. -/
def gameLogBodyDup : Json :=
  Json.obj [("stats", Json.arr
    [Json.obj [("splits", Json.arr
      [Json.obj [("date", Json.str "2018-10-04"), ("stat", Json.obj [("goals", Json.num 1)])],
        Json.obj [("date", Json.str "2018-10-04"),
          ("stat", Json.obj [("goals", Json.num 0)])]])]])]

/-- Environment answering every request with `gameLogBodyDup`. -/
def gameLogFetchDup : String → Response :=
  fun _ => { status_code := 200, json := gameLogBodyDup }

/-- A schedule response with one game on each of two distinct dates. -/
def scheduleBody : Json :=
  Json.obj [("dates", Json.arr
    [Json.obj [("date", Json.str "2019-10-05"),
      ("games", Json.arr [Json.obj [("gamePk", Json.num 102)]])],
      Json.obj [("date", Json.str "2019-10-03"),
        ("games", Json.arr [Json.obj [("gamePk", Json.num 101)]])]])]

/-- Environment answering every request with `scheduleBody`. -/
def scheduleFetch : String → Response := fun _ => { status_code := 200, json := scheduleBody }

/-- A schedule response with two games on the same date. -/
def scheduleBodyDup : Json :=
  Json.obj [("dates", Json.arr
    [Json.obj [("date", Json.str "2020-01-01"),
      ("games", Json.arr
        [Json.obj [("gamePk", Json.num 101)], Json.obj [("gamePk", Json.num 102)]])]])]

/-- Environment answering every request with `scheduleBodyDup`. -/
def scheduleFetchDup : String → Response :=
  fun _ => { status_code := 200, json := scheduleBodyDup }

-- ===================================================================
-- Lemmas about the dict operations.
-- ===================================================================

theorem dinsert_eq_append {α : Type} (d : List (String × α)) (k : String) (v : α)
    (h : k ∉ d.map Prod.fst) : dinsert d k v = d ++ [(k, v)] := by
  induction d with
  | nil => rfl
  | cons kv rest ih =>
    obtain ⟨k', v'⟩ := kv
    simp only [List.map_cons, List.mem_cons, not_or] at h
    rw [dinsert, if_neg (fun he => h.1 he.symm), ih h.2, List.cons_append]

theorem dupdate_cons {α : Type} (d : List (String × α)) (k : String) (v : α)
    (e : List (String × α)) :
    dupdate d ((k, v) :: e) = dupdate (dinsert d k v) e := rfl

theorem dupdate_eq_append {α : Type} (d e : List (String × α))
    (h : (d.map Prod.fst ++ e.map Prod.fst).Nodup) : dupdate d e = d ++ e := by
  induction e generalizing d with
  | nil => simp [dupdate]
  | cons kv e' ih =>
    obtain ⟨k, v⟩ := kv
    simp only [List.map_cons] at h
    have hnotin : k ∉ d.map Prod.fst := by
      have hd := List.nodup_append.mp h
      intro hk
      exact hd.2.2 hk (List.mem_cons_self k _)
    rw [dupdate_cons, dinsert_eq_append d k v hnotin, ih]
    · rw [List.append_assoc, List.singleton_append]
    · rw [List.map_append, List.append_assoc]
      simpa using h

theorem mem_dinsert {α : Type} {d : List (String × α)} {k : String} {v : α}
    {x : String × α} : x ∈ dinsert d k v → x = (k, v) ∨ x ∈ d := by
  induction d with
  | nil =>
    intro h
    simpa [dinsert] using h
  | cons kv rest ih =>
    obtain ⟨k', v'⟩ := kv
    intro h
    rw [dinsert] at h
    by_cases he : k' = k
    · rw [if_pos he, List.mem_cons] at h
      rcases h with h | h
      · exact Or.inl h
      · exact Or.inr (List.mem_cons_of_mem _ h)
    · rw [if_neg he, List.mem_cons] at h
      rcases h with h | h
      · exact Or.inr (by simp [h])
      · rcases ih h with h' | h'
        · exact Or.inl h'
        · exact Or.inr (List.mem_cons_of_mem _ h')

theorem dlookup_eq_some_of_mem_keys {α : Type} {d : List (String × α)} {k : String} :
    k ∈ d.map Prod.fst → ∃ v, dlookup d k = some v := by
  induction d with
  | nil =>
    intro h
    simp at h
  | cons kv rest ih =>
    obtain ⟨k', v'⟩ := kv
    intro h
    by_cases he : k' = k
    · exact ⟨v', by rw [dlookup, if_pos he]⟩
    · rw [List.map_cons, List.mem_cons] at h
      rcases h with h | h
      · exact absurd h.symm he
      · obtain ⟨v, hv⟩ := ih h
        exact ⟨v, by rw [dlookup, if_neg he, hv]⟩

theorem mem_of_dlookup_eq_some {α : Type} {d : List (String × α)} {k : String} {v : α} :
    dlookup d k = some v → (k, v) ∈ d := by
  induction d with
  | nil =>
    intro h
    simp [dlookup] at h
  | cons kv rest ih =>
    obtain ⟨k', v'⟩ := kv
    intro h
    rw [dlookup] at h
    by_cases he : k' = k
    · rw [if_pos he] at h
      simp only [Option.some.injEq] at h
      simp [← he, ← h]
    · rw [if_neg he] at h
      exact List.mem_cons_of_mem _ (ih h)

-- ===================================================================
-- Lemmas about unroll_json.
-- ===================================================================

theorem unrollItems_nil (bl : List String) (pfx : Option String) (out : JDict) :
    unrollItems bl pfx out [] = out := by
  rw [unrollItems.eq_def]

theorem unrollItems_cons_bl (bl : List String) (pfx : Option String) (out : JDict)
    {k : String} (v : Json) (rest : JDict) (hk : k ∈ bl) :
    unrollItems bl pfx out ((k, v) :: rest) = unrollItems bl pfx out rest := by
  rw [unrollItems.eq_def]
  simp [hk]

theorem unrollItems_cons_obj (bl : List String) (pfx : Option String) (out : JDict)
    {k : String} (sub : JDict) (rest : JDict) (hk : k ∉ bl) :
    unrollItems bl pfx out ((k, Json.obj sub) :: rest) =
      unrollItems bl pfx
        (dupdate out (unrollItems bl (some (pkey pfx k)) [] sub)) rest := by
  rw [unrollItems.eq_def]
  simp [hk]

theorem unrollItems_cons_leaf (bl : List String) (pfx : Option String) (out : JDict)
    {k : String} {v : Json} (rest : JDict) (hk : k ∉ bl) (hv : v.isObj = false) :
    unrollItems bl pfx out ((k, v) :: rest) =
      unrollItems bl pfx (dinsert out (pkey pfx k) v) rest := by
  rw [unrollItems.eq_def]
  simp only [if_neg hk]
  cases v <;> simp_all [Json.isObj]

theorem leavesItems_nil (bl : List String) (pfx : Option String) :
    leavesItems bl pfx [] = [] := by
  rw [leavesItems.eq_def]

theorem leavesItems_cons_bl (bl : List String) (pfx : Option String)
    {k : String} (v : Json) (rest : JDict) (hk : k ∈ bl) :
    leavesItems bl pfx ((k, v) :: rest) = leavesItems bl pfx rest := by
  rw [leavesItems.eq_def]
  simp [hk]

theorem leavesItems_cons_obj (bl : List String) (pfx : Option String)
    {k : String} (sub : JDict) (rest : JDict) (hk : k ∉ bl) :
    leavesItems bl pfx ((k, Json.obj sub) :: rest) =
      leavesItems bl (some (pkey pfx k)) sub ++ leavesItems bl pfx rest := by
  rw [leavesItems.eq_def]
  simp [hk]

theorem leavesItems_cons_leaf (bl : List String) (pfx : Option String)
    {k : String} {v : Json} (rest : JDict) (hk : k ∉ bl) (hv : v.isObj = false) :
    leavesItems bl pfx ((k, v) :: rest) =
      (pkey pfx k, v) :: leavesItems bl pfx rest := by
  rw [leavesItems.eq_def]
  simp only [if_neg hk]
  cases v <;> simp_all [Json.isObj]

theorem leavesItems_not_obj (bl : List String) (pfx : Option String) (content : JDict) :
    ∀ kv ∈ leavesItems bl pfx content, kv.2.isObj = false := by
  induction pfx, content using leavesItems.induct bl with
  | case1 pfx => simp [leavesItems_nil]
  | case2 pfx k v rest hk ih =>
    rw [leavesItems_cons_bl bl pfx v rest hk]
    exact ih
  | case3 pfx k rest hk sub ih1 ih2 =>
    rw [leavesItems_cons_obj bl pfx sub rest hk]
    intro kv hkv
    rcases List.mem_append.mp hkv with h | h
    · exact ih1 kv h
    · exact ih2 kv h
  | case4 pfx k v rest hk hv ih =>
    have hvo : v.isObj = false := by
      cases v <;> first | rfl | exact absurd rfl (hv _)
    rw [leavesItems_cons_leaf bl pfx rest hk hvo]
    intro kv hkv
    rcases List.mem_cons.mp hkv with h | h
    · rw [h]; exact hvo
    · exact ih kv h

theorem unrollItems_eq (bl : List String) (pfx : Option String) (out content : JDict)
    (h : (out.map Prod.fst ++ (leavesItems bl pfx content).map Prod.fst).Nodup) :
    unrollItems bl pfx out content = out ++ leavesItems bl pfx content := by
  induction pfx, out, content using unrollItems.induct bl with
  | case1 pfx out =>
    rw [unrollItems_nil, leavesItems_nil, List.append_nil]
  | case2 pfx out k v rest hk ih =>
    rw [unrollItems_cons_bl bl pfx out v rest hk]
    rw [leavesItems_cons_bl bl pfx v rest hk] at h ⊢
    exact ih h
  | case3 pfx out k rest hk sub ih1 ih2 =>
    rw [leavesItems_cons_obj bl pfx sub rest hk, List.map_append,
      ← List.append_assoc] at h
    have hfront := (List.nodup_append.mp h).1
    have hsub : unrollItems bl (some (pkey pfx k)) [] sub =
        leavesItems bl (some (pkey pfx k)) sub := by
      apply ih1
      simpa using (List.nodup_append.mp hfront).2.1
    rw [hsub] at ih2
    have hupd : dupdate out (leavesItems bl (some (pkey pfx k)) sub) =
        out ++ leavesItems bl (some (pkey pfx k)) sub :=
      dupdate_eq_append _ _ hfront
    rw [unrollItems_cons_obj bl pfx out sub rest hk, hsub, hupd]
    rw [hupd] at ih2
    rw [leavesItems_cons_obj bl pfx sub rest hk, ← List.append_assoc]
    apply ih2
    rw [List.map_append]
    exact h
  | case4 pfx out k v rest hk hv ih =>
    have hvo : v.isObj = false := by
      cases v <;> first | rfl | exact absurd rfl (hv _)
    rw [leavesItems_cons_leaf bl pfx rest hk hvo] at h
    simp only [List.map_cons] at h
    have hnotin : pkey pfx k ∉ out.map Prod.fst := by
      have hd := List.nodup_append.mp h
      intro hmem
      exact hd.2.2 hmem (List.mem_cons_self _ _)
    have hins : dinsert out (pkey pfx k) v = out ++ [(pkey pfx k, v)] :=
      dinsert_eq_append out (pkey pfx k) v hnotin
    rw [unrollItems_cons_leaf bl pfx out rest hk hvo, hins]
    rw [hins] at ih
    have hih : unrollItems bl pfx (out ++ [(pkey pfx k, v)]) rest =
        out ++ [(pkey pfx k, v)] ++ leavesItems bl pfx rest := by
      apply ih
      simp only [List.map_append, List.map_cons, List.map_nil, List.append_assoc,
        List.singleton_append]
      exact h
    rw [hih, leavesItems_cons_leaf bl pfx rest hk hvo]
    simp [List.append_assoc]

-- ===================================================================
-- Lemmas about the inline two-level flattening of get_player_games_stats.
-- ===================================================================

theorem dupdate_append {α : Type} (d a b : List (String × α)) :
    dupdate d (a ++ b) = dupdate (dupdate d a) b := by
  simp [dupdate, List.foldl_append]

theorem gameRecordPairs_nil : gameRecordPairs [] = [] := by
  rw [gameRecordPairs.eq_def]

theorem gameRecordPairs_cons_obj (k1 : String) (sub rest : JDict) :
    gameRecordPairs ((k1, Json.obj sub) :: rest) =
      sub.map (fun kv2 => (statKey k1 kv2.1, kv2.2)) ++ gameRecordPairs rest := by
  rw [gameRecordPairs.eq_def]

theorem gameRecordPairs_cons_leaf (k1 : String) {v : Json} (rest : JDict)
    (hv : v.isObj = false) :
    gameRecordPairs ((k1, v) :: rest) = (k1, v) :: gameRecordPairs rest := by
  rw [gameRecordPairs.eq_def]
  cases v <;> simp_all [Json.isObj]

theorem gameStep_obj (acc : JDict) (k1 : String) (sub : JDict) :
    gameStep acc (k1, Json.obj sub) =
      dupdate acc (sub.map (fun kv2 => (statKey k1 kv2.1, kv2.2))) := by
  simp [gameStep, dupdate, List.foldl_map]

theorem gameStep_leaf (acc : JDict) (k1 : String) {v : Json} (hv : v.isObj = false) :
    gameStep acc (k1, v) = dinsert acc k1 v := by
  cases v <;> simp_all [gameStep, Json.isObj]

theorem flatten_fold_eq (gs : JDict) :
    ∀ acc, gs.foldl gameStep acc = dupdate acc (gameRecordPairs gs) := by
  induction gs with
  | nil =>
    intro acc
    simp [gameRecordPairs_nil, dupdate]
  | cons kv rest ih =>
    intro acc
    obtain ⟨k1, v1⟩ := kv
    rw [List.foldl_cons]
    cases hv : v1 with
    | obj sub =>
      rw [ih, gameStep_obj, gameRecordPairs_cons_obj, dupdate_append]
    | _ =>
      rw [ih, gameStep_leaf acc k1 (by simp [Json.isObj]),
        gameRecordPairs_cons_leaf k1 rest (by simp [Json.isObj]), dupdate_cons]

theorem flatten_eq_pairs (gs : JDict)
    (h : ((gameRecordPairs gs).map Prod.fst).Nodup) :
    flatten_game_stats gs = gameRecordPairs gs := by
  have : flatten_game_stats gs = dupdate [] (gameRecordPairs gs) := flatten_fold_eq gs []
  rw [this, dupdate_eq_append [] _ (by simpa using h), List.nil_append]

theorem mem_gameRecordPairs {k1 : String} {sub : JDict} {kv2 : String × Json}
    {gs : JDict} (hkv : kv2 ∈ sub) :
    (k1, Json.obj sub) ∈ gs → (statKey k1 kv2.1, kv2.2) ∈ gameRecordPairs gs := by
  induction gs with
  | nil =>
    intro hg
    cases hg
  | cons hd rest ih =>
    intro hg
    rcases List.mem_cons.mp hg with he | hg'
    · rw [← he, gameRecordPairs_cons_obj]
      exact List.mem_append_left _ (List.mem_map_of_mem _ hkv)
    · obtain ⟨k', v'⟩ := hd
      cases v' with
      | obj sub' =>
        rw [gameRecordPairs_cons_obj]
        exact List.mem_append_right _ (ih hg')
      | _ =>
        rw [gameRecordPairs_cons_leaf k' rest (by simp [Json.isObj])]
        exact List.mem_cons_of_mem _ (ih hg')

theorem leavesItems_flat (content : JDict) :
    (∀ kv ∈ content, kv.2.isObj = false) → leavesItems [] none content = content := by
  induction content with
  | nil =>
    intro _
    exact leavesItems_nil [] none
  | cons kv rest ih =>
    intro hflat
    obtain ⟨k, v⟩ := kv
    have hv : v.isObj = false := hflat (k, v) (List.mem_cons_self _ _)
    rw [leavesItems_cons_leaf [] none rest (by simp) hv,
      ih (fun kv h => hflat kv (List.mem_cons_of_mem _ h))]
    rfl

-- ===================================================================
-- C1, C8, C10: the flattening claims.
-- ===================================================================

/-- C1 (amended): for every JSON dictionary, blacklist and optional
prefix such that the joined key paths of the surviving non-dict leaves
are pairwise distinct, `unroll_json` returns exactly those leaves —
blacklisted keys pruned with their whole subtree at every nesting level,
each leaf stored under the prefix-and-path keys joined with underscores,
in depth-first order — and no value in the result is a dictionary.  (The
distinctness hypothesis is forced by `claim_C1_cex`: on a collision of
joined keys the later leaf silently overwrites the earlier one.) -/
theorem claim_C1_unroll_json_flattens (content : JDict)
    (blacklist : Option (List String)) (pfx : Option String)
    (h : ((leavesItems (blacklist.getD []) pfx content).map Prod.fst).Nodup) :
    unroll_json content blacklist pfx = leavesItems (blacklist.getD []) pfx content ∧
    ∀ kv ∈ unroll_json content blacklist pfx, kv.2.isObj = false := by
  have he : unroll_json content blacklist pfx =
      leavesItems (blacklist.getD []) pfx content := by
    simp only [unroll_json]
    rw [unrollItems_eq (blacklist.getD []) pfx [] content (by simpa using h),
      List.nil_append]
  refine ⟨he, ?_⟩
  intro kv hkv
  rw [he] at hkv
  exact leavesItems_not_obj _ _ _ kv hkv

/-- Witness for C1 at a concrete nested input with a blacklist and a
prefix. -/
theorem claim_C1_unroll_json_flattens_witness :
    ((leavesItems ["c"] (some "p")
      [("a", Json.obj [("b", Json.num 1), ("c", Json.num 2)]),
        ("d", Json.num 3)]).map Prod.fst).Nodup ∧
    unroll_json
        [("a", Json.obj [("b", Json.num 1), ("c", Json.num 2)]), ("d", Json.num 3)]
        (some ["c"]) (some "p") =
      leavesItems ["c"] (some "p")
        [("a", Json.obj [("b", Json.num 1), ("c", Json.num 2)]), ("d", Json.num 3)] := by
  have hval : leavesItems ["c"] (some "p")
      [("a", Json.obj [("b", Json.num 1), ("c", Json.num 2)]), ("d", Json.num 3)] =
      [("p_a_b", Json.num 1), ("p_d", Json.num 3)] := by
    simp [leavesItems_cons_obj, leavesItems_cons_leaf, leavesItems_cons_bl, leavesItems_nil, pkey, Json.isObj]
  have h : ((leavesItems ["c"] (some "p")
      [("a", Json.obj [("b", Json.num 1), ("c", Json.num 2)]),
        ("d", Json.num 3)]).map Prod.fst).Nodup := by
    rw [hval]
    decide
  exact ⟨h, (claim_C1_unroll_json_flattens _ (some ["c"]) (some "p") h).1⟩

/-- Counterexample to C1 as frozen: in
`{"a": {"b": 1}, "a_b": 2}` the leaf `1` sits at the non-blacklisted key
path `a.b`, which joins to `"a_b"`, yet the result of `unroll_json` is
`{"a_b": 2}` — the leaf `1` is not contained in the output, so the output
does not consist of exactly the surviving leaves. -/
theorem claim_C1_cex :
    ("a_b", Json.num 1) ∈
      leavesItems [] none [("a", Json.obj [("b", Json.num 1)]), ("a_b", Json.num 2)] ∧
    unroll_json [("a", Json.obj [("b", Json.num 1)]), ("a_b", Json.num 2)] none none =
      [("a_b", Json.num 2)] := by
  constructor
  · have hval : leavesItems [] none
        [("a", Json.obj [("b", Json.num 1)]), ("a_b", Json.num 2)] =
        [("a_b", Json.num 1), ("a_b", Json.num 2)] := by
      simp [leavesItems_cons_obj, leavesItems_cons_leaf, leavesItems_cons_bl, leavesItems_nil, pkey, Json.isObj]
    rw [hval]
    simp
  · simp [unroll_json, unrollItems_cons_obj, unrollItems_cons_leaf, unrollItems_cons_bl, unrollItems_nil,
      dupdate, dinsert, pkey, Json.isObj]

/-- C10 (confirmed): on a dictionary with (necessarily, for a Python
dict) distinct keys and no dictionary values, `unroll_json` with no
blacklist and no prefix returns the input unchanged, keys in the same
order with the same values. -/
theorem claim_C10_unroll_identity (content : JDict)
    (hkeys : (content.map Prod.fst).Nodup)
    (hflat : ∀ kv ∈ content, kv.2.isObj = false) :
    unroll_json content none none = content := by
  have hl := leavesItems_flat content hflat
  simp only [unroll_json, Option.getD_none]
  rw [unrollItems_eq [] none [] content (by rw [hl]; simpa using hkeys),
    List.nil_append, hl]

/-- Witness for C10 at a concrete flat dictionary. -/
theorem claim_C10_unroll_identity_witness :
    ([("x", Json.num 1), ("y", Json.str "a")].map Prod.fst).Nodup ∧
    (∀ kv ∈ [("x", Json.num 1), ("y", Json.str "a")], kv.2.isObj = false) ∧
    unroll_json [("x", Json.num 1), ("y", Json.str "a")] none none =
      [("x", Json.num 1), ("y", Json.str "a")] :=
  ⟨by decide, by decide, claim_C10_unroll_identity _ (by decide) (by decide)⟩

/-- C8 (amended): the two-level flattening of `get_player_games_stats`,
under the hypothesis (forced by `claim_C8_cex`) that the generated keys
are pairwise distinct: the record equals the written pairs; a value under
the top-level dict key `"stat"` appears under its own key; a value under
any other dict-valued top-level key `k1` appears under `k1_k2`; and a
dictionary nested a further level down is kept as a dict value, not
flattened (unlike the recursive `unroll_json`). -/
theorem claim_C8_two_level_flatten (gs : JDict)
    (h : ((gameRecordPairs gs).map Prod.fst).Nodup) :
    flatten_game_stats gs = gameRecordPairs gs ∧
    (∀ sub kv2, ("stat", Json.obj sub) ∈ gs → kv2 ∈ sub →
      (kv2.1, kv2.2) ∈ flatten_game_stats gs) ∧
    (∀ k1 sub kv2, k1 ≠ "stat" → (k1, Json.obj sub) ∈ gs → kv2 ∈ sub →
      (k1 ++ "_" ++ kv2.1, kv2.2) ∈ flatten_game_stats gs) ∧
    (∀ k1 sub k2 sub2, (k1, Json.obj sub) ∈ gs → (k2, Json.obj sub2) ∈ sub →
      (statKey k1 k2, Json.obj sub2) ∈ flatten_game_stats gs) := by
  have he := flatten_eq_pairs gs h
  refine ⟨he, ?_, ?_, ?_⟩
  · intro sub kv2 hg hkv
    have hm := mem_gameRecordPairs hkv hg
    rw [he]
    simpa [statKey] using hm
  · intro k1 sub kv2 hne hg hkv
    have hm := mem_gameRecordPairs hkv hg
    rw [he]
    simpa [statKey, hne] using hm
  · intro k1 sub k2 sub2 hg hkv
    have hm := mem_gameRecordPairs hkv hg
    rw [he]
    exact hm

/-- Witness for C8 at a concrete per-game record with a `stat` dict, a
non-`stat` dict and a plain field. -/
theorem claim_C8_two_level_flatten_witness :
    ((gameRecordPairs
      [("stat", Json.obj [("goals", Json.num 2)]),
        ("game", Json.obj [("gamePk", Json.num 5)]),
        ("season", Json.str "20182019")]).map Prod.fst).Nodup ∧
    flatten_game_stats
        [("stat", Json.obj [("goals", Json.num 2)]),
          ("game", Json.obj [("gamePk", Json.num 5)]),
          ("season", Json.str "20182019")] =
      gameRecordPairs
        [("stat", Json.obj [("goals", Json.num 2)]),
          ("game", Json.obj [("gamePk", Json.num 5)]),
          ("season", Json.str "20182019")] :=
  ⟨by decide, (claim_C8_two_level_flatten _ (by decide)).1⟩

/-- Counterexample to C8 as frozen: in the per-game record
`{"stat": {"goals": 1}, "goals": 2}` the value `1` nested under `"stat"`
should appear under its own key `"goals"`, but the later top-level field
overwrites it: the flattened row maps `"goals"` to `2`, not `1`. -/
theorem claim_C8_cex :
    flatten_game_stats [("stat", Json.obj [("goals", Json.num 1)]), ("goals", Json.num 2)] =
      [("goals", Json.num 2)] ∧
    ("stat", Json.obj [("goals", Json.num 1)]) ∈
      [("stat", Json.obj [("goals", Json.num 1)]), ("goals", Json.num 2)] ∧
    dlookup (flatten_game_stats
        [("stat", Json.obj [("goals", Json.num 1)]), ("goals", Json.num 2)]) "goals" ≠
      some (Json.num 1) := by
  refine ⟨rfl, List.mem_cons_self _ _, ?_⟩
  intro hcontra
  rw [show dlookup (flatten_game_stats
      [("stat", Json.obj [("goals", Json.num 1)]), ("goals", Json.num 2)]) "goals" =
      some (Json.num 2) from rfl] at hcontra
  simp at hcontra

-- ===================================================================
-- C2: the HTTP GET wrapper.
-- ===================================================================

theorem get_eq (res : Response) :
    get res = if res.status_code ≠ 200 then Except.error (ApiError.http res.status_code)
      else Except.ok res.json := rfl

/-- C2 (confirmed): `get` raises exactly when the response status code
differs from 200 — any non-200 code, success statuses such as 201 or 204
included — and on a 200 response returns the JSON-decoded body
unchanged. -/
theorem claim_C2_get_raises_iff_non_200 (res : Response) :
    ((∃ e, get res = Except.error e) ↔ res.status_code ≠ 200) ∧
    (res.status_code = 200 → get res = Except.ok res.json) := by
  constructor
  · constructor
    · rintro ⟨e, he⟩
      intro h200
      rw [get_eq, if_neg (by simp [h200])] at he
      exact Except.noConfusion he
    · intro hne
      exact ⟨ApiError.http res.status_code, by rw [get_eq, if_pos hne]⟩
  · intro h200
    rw [get_eq, if_neg (by simp [h200])]

/-- Witness for C2 at a 201 response (error) and a 200 response (body
passed through). -/
theorem claim_C2_get_raises_iff_non_200_witness :
    (∃ e, get { status_code := 201, json := Json.null } = Except.error e) ∧
    get { status_code := 200, json := Json.null } = Except.ok Json.null :=
  ⟨(claim_C2_get_raises_iff_non_200 _).1.mpr (by decide),
    (claim_C2_get_raises_iff_non_200 _).2 rfl⟩

-- ===================================================================
-- The lookup path never produces the AttributeError of the parameter
-- validation.
-- ===================================================================

theorem noAttr_ok {β : Type} (b : β) : noAttr (Except.ok b) := by
  intro m h
  exact Except.noConfusion h

theorem noAttr_pure {β : Type} (b : β) : noAttr (pure b : Except ApiError β) :=
  noAttr_ok b

theorem noAttr_error_http {β : Type} (c : Nat) :
    noAttr (Except.error (ApiError.http c) : Except ApiError β) := by
  intro m h
  simp at h

theorem noAttr_error_shape {β : Type} :
    noAttr (Except.error ApiError.shape : Except ApiError β) := by
  intro m h
  simp at h

theorem noAttr_bind {α β : Type} {x : Except ApiError α} {f : α → Except ApiError β}
    (hx : noAttr x) (hf : ∀ a, noAttr (f a)) : noAttr (x >>= f) := by
  intro m h
  cases x with
  | error e =>
    have he : (Except.error e : Except ApiError β) = Except.error (ApiError.attr m) := h
    have : e = ApiError.attr m := by injection he
    exact hx m (by rw [this])
  | ok a => exact hf a m h

theorem noAttr_map {α β : Type} {x : Except ApiError α} (f : α → β)
    (hx : noAttr x) : noAttr (Except.map f x) := by
  intro m h
  cases x with
  | error e =>
    have he : (Except.error e : Except ApiError β) = Except.error (ApiError.attr m) := h
    have : e = ApiError.attr m := by injection he
    exact hx m (by rw [this])
  | ok a => exact Except.noConfusion h

theorem noAttr_get (res : Response) : noAttr (get res) := by
  intro m
  rw [get_eq]
  split <;> simp

theorem noAttr_jField (j : Json) (k : String) : noAttr (jField j k) := by
  intro m
  unfold jField
  split
  · split <;> simp
  · simp

theorem noAttr_jArr (j : Json) : noAttr (jArr j) := by
  intro m
  unfold jArr
  split <;> simp

theorem noAttr_jObj (j : Json) : noAttr (jObj j) := by
  intro m
  unfold jObj
  split <;> simp

theorem noAttr_jStr (j : Json) : noAttr (jStr j) := by
  intro m
  unfold jStr
  split <;> simp

theorem noAttr_jInt (j : Json) : noAttr (jInt j) := by
  intro m
  unfold jInt
  split <;> simp

theorem noAttr_jHead {α : Type} (l : List α) : noAttr (jHead l) := by
  intro m
  unfold jHead
  split <;> simp

theorem noAttr_listMapM {α β : Type} {f : α → Except ApiError β}
    (hf : ∀ a, noAttr (f a)) : ∀ l, noAttr (listMapM f l) := by
  intro l
  induction l with
  | nil =>
    intro m h
    simp [listMapM, pure, Except.pure] at h
  | cons x xs ih =>
    simp only [listMapM]
    exact noAttr_bind (hf x) (fun y => noAttr_bind ih (fun ys => noAttr_pure _))

theorem noAttr_teams_of (fetch : String → Response) : noAttr (teams_of fetch) := by
  unfold teams_of
  refine noAttr_bind (noAttr_get _) (fun body => ?_)
  refine noAttr_bind (noAttr_jField _ _) (fun x => ?_)
  refine noAttr_bind (noAttr_jArr _) (fun ts => ?_)
  refine noAttr_bind (noAttr_listMapM (fun t => ?_) ts) (fun entries => noAttr_ok _)
  refine noAttr_bind (noAttr_jField _ _) (fun y => ?_)
  refine noAttr_bind (noAttr_jStr _) (fun name => ?_)
  refine noAttr_bind (noAttr_jField _ _) (fun z => ?_)
  exact noAttr_bind (noAttr_jInt _) (fun tid => noAttr_ok _)

theorem noAttr_find_team_id (score : String → String → Nat)
    (fetch : String → Response) (team_name : String) :
    noAttr (find_team_id score fetch team_name) := by
  unfold find_team_id
  exact noAttr_map _ (noAttr_teams_of fetch)

theorem noAttr_players_of (fetch : String → Response) (team_id : Int) :
    noAttr (players_of fetch team_id) := by
  unfold players_of
  refine noAttr_bind (noAttr_get _) (fun body => ?_)
  refine noAttr_bind (noAttr_jField _ _) (fun x => ?_)
  refine noAttr_bind (noAttr_jArr _) (fun ts => ?_)
  refine noAttr_bind (noAttr_jHead _) (fun t0 => ?_)
  refine noAttr_bind (noAttr_jField _ _) (fun y => ?_)
  refine noAttr_bind (noAttr_jField _ _) (fun z => ?_)
  refine noAttr_bind (noAttr_jArr _) (fun roster => ?_)
  refine noAttr_bind (noAttr_listMapM (fun p => ?_) roster) (fun entries => noAttr_ok _)
  refine noAttr_bind (noAttr_jField _ _) (fun person => ?_)
  refine noAttr_bind (noAttr_jField _ _) (fun w => ?_)
  refine noAttr_bind (noAttr_jStr _) (fun name => ?_)
  refine noAttr_bind (noAttr_jField _ _) (fun u => ?_)
  exact noAttr_bind (noAttr_jInt _) (fun pid => noAttr_ok _)

theorem noAttr_player_lookup (score : String → String → Nat)
    (fetch : String → Response) (player_name : String) (team_id : Option Int)
    (team_name : Option String) :
    noAttr (player_lookup score fetch player_name team_id team_name) := by
  unfold player_lookup
  cases team_id with
  | some t =>
    exact noAttr_bind (noAttr_ok _) (fun y =>
      noAttr_bind (noAttr_players_of _ _) (fun d => noAttr_ok _))
  | none =>
    refine noAttr_bind (noAttr_find_team_id _ _ _) (fun s => ?_)
    refine noAttr_bind (noAttr_jHead _) (fun p => ?_)
    exact noAttr_bind (noAttr_ok _) (fun y =>
      noAttr_bind (noAttr_players_of _ _) (fun d => noAttr_ok _))

-- ===================================================================
-- C3: the mutually-exclusive team_id / team_name validation.
-- ===================================================================

/-- C3 (confirmed): `find_player_id` raises the `AttributeError` exactly
when `team_id` and `team_name` are both missing or both given; when
exactly one is given, the call equals the post-validation roster lookup
and no parameter-validation error can be produced. -/
theorem claim_C3_param_validation (score : String → String → Nat)
    (fetch : String → Response) (player_name : String) (team_id : Option Int)
    (team_name : Option String) :
    ((team_id.isSome && team_name.isSome) = true ∨
        (team_id.isNone && team_name.isNone) = true →
      find_player_id score fetch player_name team_id team_name =
        Except.error (ApiError.attr "You need to give either team_id or team_name.")) ∧
    (team_id.isSome ≠ team_name.isSome →
      find_player_id score fetch player_name team_id team_name =
        player_lookup score fetch player_name team_id team_name ∧
      noAttr (find_player_id score fetch player_name team_id team_name)) := by
  constructor
  · intro h
    rcases h with h | h <;> cases team_id <;> cases team_name <;>
      simp_all [find_player_id]
  · intro h
    have heq : find_player_id score fetch player_name team_id team_name =
        player_lookup score fetch player_name team_id team_name := by
      cases team_id <;> cases team_name <;> simp_all [find_player_id]
    exact ⟨heq, by rw [heq]; exact noAttr_player_lookup _ _ _ _ _⟩

/-- Witness for C3: both-missing raises the `AttributeError`, and giving
only `team_id` reaches the lookup. -/
theorem claim_C3_param_validation_witness :
    find_player_id (fun _ _ => 0) (fun _ => { status_code := 404, json := Json.null })
        "Price" none none =
      Except.error (ApiError.attr "You need to give either team_id or team_name.") ∧
    find_player_id (fun _ _ => 0) (fun _ => { status_code := 404, json := Json.null })
        "Price" (some 8) none =
      player_lookup (fun _ _ => 0) (fun _ => { status_code := 404, json := Json.null })
        "Price" (some 8) none :=
  ⟨(claim_C3_param_validation _ _ _ none none).1 (Or.inr (by decide)),
    ((claim_C3_param_validation _ _ _ (some 8) none).2 (by decide)).1⟩

-- ===================================================================
-- C4: the fuzzy top-3 ranking.
-- ===================================================================

theorem ok_bind {α β : Type} (a : α) (f : α → Except ApiError β) :
    (Except.ok a >>= f) = f a := rfl

theorem map_ok {α β : Type} (f : α → β) (a : α) :
    Except.map f (Except.ok a : Except ApiError α) = Except.ok (f a) := rfl

theorem player_lookup_some (score : String → String → Nat)
    (fetch : String → Response) (player_name : String) (t : Int) :
    player_lookup score fetch player_name (some t) none =
      players_of fetch t >>= (fun d => Except.ok (series_from score player_name d)) := rfl

theorem extract_length (score : String → String → Nat) (q : String)
    (choices : List String) (limit : Nat) :
    (extract score q choices limit).length = min limit choices.length := by
  unfold extract
  rw [List.length_take, (List.perm_insertionSort _ _).length_eq]

theorem extract_sorted (score : String → String → Nat) (q : String)
    (choices : List String) (limit : Nat) :
    List.Sorted (fun a b => score q b ≤ score q a) (extract score q choices limit) := by
  unfold extract
  apply List.Pairwise.sublist (List.take_sublist _ _)
  letI : IsTotal String (fun a b => score q b ≤ score q a) :=
    ⟨fun a b => Nat.le_total (score q b) (score q a)⟩
  letI : IsTrans String (fun a b => score q b ≤ score q a) :=
    ⟨fun _ _ _ hab hbc => Nat.le_trans hbc hab⟩
  exact List.sorted_insertionSort _ _

theorem extract_mem (score : String → String → Nat) (q : String)
    (choices : List String) (limit : Nat) {x : String}
    (hx : x ∈ extract score q choices limit) : x ∈ choices := by
  unfold extract at hx
  exact (List.perm_insertionSort _ _).mem_iff.mp
    ((List.take_sublist _ _).subset hx)

theorem series_from_props (score : String → String → Nat) (q : String)
    (d : List (String × Int)) :
    (series_from score q d).length = min 3 d.length ∧
    List.Sorted (fun a b => score q b.1 ≤ score q a.1) (series_from score q d) ∧
    ∀ p ∈ series_from score q d, p ∈ d := by
  refine ⟨?_, ?_, ?_⟩
  · unfold series_from
    rw [List.length_map, extract_length, List.length_map]
  · unfold series_from
    exact List.pairwise_map.mpr (extract_sorted score q (d.map Prod.fst) 3)
  · intro p hp
    unfold series_from at hp
    obtain ⟨n, hn, rfl⟩ := List.mem_map.mp hp
    have hmem : n ∈ d.map Prod.fst := extract_mem score q _ 3 hn
    obtain ⟨v, hv⟩ := dlookup_eq_some_of_mem_keys hmem
    rw [hv]
    exact mem_of_dlookup_eq_some hv

/-- C4 (amended): both fuzzy search functions return a series of
`min 3 n` candidates, where `n` is the number of distinct candidate names
in the response (so exactly 3 only when the response lists at least 3),
ranked by fuzzy score against the query in nonincreasing order, with the
matched names as index entries and the corresponding ids from the
response as values.  (`claim_C4_cex` forces the `min`: with two candidate
teams only two rows come back.) -/
theorem claim_C4_top3 (score : String → String → Nat)
    (fetchT fetchP : String → Response) (q pn : String) (tid : Int)
    (d d2 s s2 : List (String × Int))
    (ht : teams_of fetchT = Except.ok d)
    (hs : find_team_id score fetchT q = Except.ok s)
    (hp : players_of fetchP tid = Except.ok d2)
    (hs2 : find_player_id score fetchP pn (some tid) none = Except.ok s2) :
    (s.length = min 3 d.length ∧
      List.Sorted (fun a b => score q b.1 ≤ score q a.1) s ∧ ∀ p ∈ s, p ∈ d) ∧
    (s2.length = min 3 d2.length ∧
      List.Sorted (fun a b => score pn b.1 ≤ score pn a.1) s2 ∧ ∀ p ∈ s2, p ∈ d2) := by
  have hse : s = series_from score q d := by
    unfold find_team_id at hs
    rw [ht, map_ok] at hs
    exact (Except.ok.inj hs).symm
  have hlookup : player_lookup score fetchP pn (some tid) none = Except.ok s2 := by
    simpa [find_player_id] using hs2
  have hs2e : s2 = series_from score pn d2 := by
    rw [player_lookup_some, hp, ok_bind] at hlookup
    exact (Except.ok.inj hlookup).symm
  rw [hse, hs2e]
  exact ⟨series_from_props score q d, series_from_props score pn d2⟩

/-- Witness for C4 on responses with three teams and three players. -/
theorem claim_C4_top3_witness :
    teams_of teamsFetch3 =
      Except.ok [("Anaheim Ducks", 24), ("Boston Bruins", 6), ("Montreal Canadiens", 8)] ∧
    find_team_id zeroScore teamsFetch3 "Canadiens" =
      Except.ok [("Anaheim Ducks", 24), ("Boston Bruins", 6), ("Montreal Canadiens", 8)] ∧
    players_of rosterFetch3 8 =
      Except.ok [("Carey Price", 8471679), ("Brendan Gallagher", 8475848),
        ("Nick Suzuki", 8480018)] ∧
    find_player_id zeroScore rosterFetch3 "Price" (some 8) none =
      Except.ok [("Carey Price", 8471679), ("Brendan Gallagher", 8475848),
        ("Nick Suzuki", 8480018)] ∧
    ([("Anaheim Ducks", (24 : Int)), ("Boston Bruins", 6),
      ("Montreal Canadiens", 8)] : List (String × Int)).length = min 3 3 := by
  refine ⟨rfl, rfl, rfl, rfl, ?_⟩
  exact (claim_C4_top3 zeroScore teamsFetch3 rosterFetch3 "Canadiens" "Price" 8
    _ _ _ _ rfl rfl rfl rfl).1.1

/-- Counterexample to C4 as frozen: a response listing two candidate
teams makes `find_team_id` return a series of two rows, not exactly 3. -/
theorem claim_C4_cex :
    find_team_id zeroScore teamsFetch2 "Canadiens" =
      Except.ok [("Montreal Canadiens", 8), ("Toronto Maple Leafs", 10)] ∧
    ([("Montreal Canadiens", (8 : Int)), ("Toronto Maple Leafs", 10)] :
      List (String × Int)).length ≠ 3 :=
  ⟨rfl, by decide⟩

-- ===================================================================
-- C9: only the single best team match is consulted.
-- ===================================================================

theorem jHead_of_head? {α : Type} {l : List α} {a : α} (h : l.head? = some a) :
    jHead l = Except.ok a := by
  cases l with
  | nil => simp at h
  | cons x xs =>
    simp only [List.head?_cons, Option.some.injEq] at h
    rw [← h]
    rfl

theorem find_team_id_congr (score : String → String → Nat)
    {fetch fetch2 : String → Response} (tn : String)
    (h : fetch2 get_team_url = fetch get_team_url) :
    find_team_id score fetch2 tn = find_team_id score fetch tn := by
  unfold find_team_id teams_of
  rw [h]

theorem players_of_congr {fetch fetch2 : String → Response} (tid : Int)
    (h : fetch2 (get_roster_url tid) = fetch (get_roster_url tid)) :
    players_of fetch2 tid = players_of fetch tid := by
  unfold players_of
  rw [h]

theorem player_lookup_none (score : String → String → Nat)
    (fetch : String → Response) (player_name tn : String) :
    player_lookup score fetch player_name none (some tn) =
      (find_team_id score fetch tn >>= fun s => jHead s >>= fun p =>
        players_of fetch p.2 >>= fun d =>
          Except.ok (series_from score player_name d)) := rfl

/-- C9 (confirmed): called with `team_name` and no `team_id`,
`find_player_id` resolves the team to the single best fuzzy match (the
head of the series returned by `find_team_id`) and searches only that
team's roster — any environment agreeing on the teams response and on
that one team's roster response produces the same result, so the other
candidates are never consulted. -/
theorem claim_C9_best_match_only (score : String → String → Nat)
    (fetch : String → Response) (pn tn : String) (s : List (String × Int))
    (p : String × Int)
    (h : find_team_id score fetch tn = Except.ok s) (hh : s.head? = some p) :
    find_player_id score fetch pn none (some tn) =
      find_player_id score fetch pn (some p.2) none ∧
    ∀ fetch2 : String → Response,
      fetch2 get_team_url = fetch get_team_url →
      fetch2 (get_roster_url p.2) = fetch (get_roster_url p.2) →
      find_player_id score fetch2 pn none (some tn) =
        find_player_id score fetch pn none (some tn) := by
  have hnorm : ∀ g : String → Response,
      g get_team_url = fetch get_team_url →
      g (get_roster_url p.2) = fetch (get_roster_url p.2) →
      find_player_id score g pn none (some tn) =
        players_of fetch p.2 >>= fun d => Except.ok (series_from score pn d) := by
    intro g h1 h2
    have hfp : find_player_id score g pn none (some tn) =
        player_lookup score g pn none (some tn) := by
      simp [find_player_id]
    rw [hfp, player_lookup_none, find_team_id_congr score tn h1, h, ok_bind,
      jHead_of_head? hh, ok_bind, players_of_congr p.2 h2]
  have hR : find_player_id score fetch pn (some p.2) none =
      players_of fetch p.2 >>= fun d => Except.ok (series_from score pn d) := by
    have hfp : find_player_id score fetch pn (some p.2) none =
        player_lookup score fetch pn (some p.2) none := by
      simp [find_player_id]
    rw [hfp, player_lookup_some]
  refine ⟨?_, ?_⟩
  · rw [hnorm fetch rfl rfl, hR]
  · intro fetch2 h1 h2
    rw [hnorm fetch2 h1 h2, hnorm fetch rfl rfl]

/-- Witness for C9 on a three-team environment: the best match is the
first series entry, and the two calls agree. -/
theorem claim_C9_best_match_only_witness :
    find_team_id zeroScore teamThenRosterFetch "Canadiens" =
      Except.ok [("Anaheim Ducks", 24), ("Boston Bruins", 6), ("Montreal Canadiens", 8)] ∧
    ([("Anaheim Ducks", (24 : Int)), ("Boston Bruins", 6),
      ("Montreal Canadiens", 8)] : List (String × Int)).head? =
      some ("Anaheim Ducks", 24) ∧
    find_player_id zeroScore teamThenRosterFetch "Price" none (some "Canadiens") =
      find_player_id zeroScore teamThenRosterFetch "Price" (some 24) none := by
  refine ⟨rfl, rfl, ?_⟩
  exact (claim_C9_best_match_only zeroScore teamThenRosterFetch "Price" "Canadiens"
    _ _ rfl rfl).1

-- ===================================================================
-- Lemmas about the date-indexed frame.
-- ===================================================================

theorem listMapM_option_mem {α β : Type} {f : α → Option β} :
    ∀ {l : List α} {ys : List β}, listMapM f l = some ys →
      ∀ y ∈ ys, ∃ x ∈ l, f x = some y := by
  intro l
  induction l with
  | nil =>
    intro ys h y hy
    simp only [listMapM, pure, Option.some.injEq] at h
    rw [← h] at hy
    simp at hy
  | cons x xs ih =>
    intro ys h y hy
    simp only [listMapM] at h
    rcases hx : f x with _ | y0
    · rw [hx] at h
      simp at h
    · rw [hx] at h
      rcases hxs : listMapM f xs with _ | ys0
      · rw [hxs] at h
        simp at h
      · rw [hxs] at h
        have h2 : (some (y0 :: ys0) : Option (List β)) = some ys := h
        rw [← Option.some.inj h2] at hy
        rcases List.mem_cons.mp hy with rfl | hy2
        · exact ⟨x, List.mem_cons_self _ _, hx⟩
        · obtain ⟨x2, hmem, hfx⟩ := ih hxs y hy2
          exact ⟨x2, List.mem_cons_of_mem _ hmem, hfx⟩

theorem rowIndexed_eq (r : JDict) :
    rowIndexed r = (dlookup r "date").bind
      (fun v => (parseDateJson v).map (fun n => (n, dremove r "date"))) := by
  unfold rowIndexed
  cases hd : dlookup r "date" with
  | none => rfl
  | some v =>
    have hall : ∀ o : Option Nat, (match o with
        | some n => some (n, dremove r "date")
        | none => none) = Option.map (fun n => (n, dremove r "date")) o := by
      intro o
      cases o <;> rfl
    exact hall (parseDateJson v)

theorem rowIndexed_cases {r : JDict} {y : Nat × JDict} (h : rowIndexed r = some y) :
    ∃ v n, dlookup r "date" = some v ∧ parseDateJson v = some n ∧
      y = (n, dremove r "date") := by
  rw [rowIndexed_eq] at h
  rcases hd : dlookup r "date" with _ | v
  · rw [hd] at h
    simp at h
  · rw [hd] at h
    have h2 : Option.map (fun n => (n, dremove r "date")) (parseDateJson v) = some y := h
    rcases hp : parseDateJson v with _ | n
    · rw [hp] at h2
      simp at h2
    · rw [hp] at h2
      have h3 : (some (n, dremove r "date") : Option (Nat × JDict)) = some y := h2
      exact ⟨v, n, rfl, hp, (Option.some.inj h3).symm⟩

theorem rowIndexed_shape {r : JDict} {y : Nat × JDict} (h : rowIndexed r = some y) :
    y.2 = dremove r "date" := by
  obtain ⟨v, n, hd, hp, hy⟩ := rowIndexed_cases h
  rw [hy]

theorem rowIndexed_date {r : JDict} {y : Nat × JDict} (h : rowIndexed r = some y) :
    (match dlookup r "date" with
      | some v => parseDateJson v
      | none => none) = some y.1 := by
  obtain ⟨v, n, hd, hp, hy⟩ := rowIndexed_cases h
  rw [hd]
  show parseDateJson v = some y.1
  rw [hp, hy]

theorem mem_dremove_ne {α : Type} {d : List (String × α)} {k : String}
    {kv : String × α} (h : kv ∈ dremove d k) : kv.1 ≠ k := by
  unfold dremove at h
  exact bne_iff_ne.mp (List.mem_filter.mp h).2

theorem make_frame_dates : ∀ {records : List JDict} {rows : List (Nat × JDict)},
    listMapM rowIndexed records = some rows →
    recordDates records = some (rows.map Prod.fst) := by
  intro records
  induction records with
  | nil =>
    intro rows h
    simp only [listMapM, pure, Option.some.injEq] at h
    rw [← h]
    rfl
  | cons r rs ih =>
    intro rows h
    simp only [listMapM] at h
    rcases hr : rowIndexed r with _ | y
    · rw [hr] at h
      simp at h
    · rw [hr] at h
      rcases hrs : listMapM rowIndexed rs with _ | ys
      · rw [hrs] at h
        simp at h
      · rw [hrs] at h
        have h2 : (some (y :: ys) : Option (List (Nat × JDict))) = some rows := h
        rw [← Option.some.inj h2]
        have ihr := ih hrs
        simp only [recordDates, listMapM] at ihr ⊢
        rw [rowIndexed_date hr, ihr]
        rfl

theorem make_frame_spec {records : List JDict} {f : List (Nat × JDict)}
    (h : make_frame records = some f) :
    ∃ ds, recordDates records = some ds ∧ (f.map Prod.fst).Perm ds ∧
      List.Sorted (fun a b : Nat => a ≤ b) (f.map Prod.fst) ∧
      ∀ row ∈ f.map Prod.snd, ∀ kv ∈ row, kv.1 ≠ "date" := by
  unfold make_frame at h
  split at h
  · exact absurd h (by simp)
  · rcases hm : listMapM rowIndexed records with _ | rows
    · rw [hm] at h
      simp at h
    · rw [hm] at h
      have hf : f = rows.insertionSort frameLe := (Option.some.inj h).symm
      refine ⟨rows.map Prod.fst, make_frame_dates hm, ?_, ?_, ?_⟩
      · rw [hf]
        exact (List.perm_insertionSort frameLe rows).map Prod.fst
      · have hs : List.Sorted frameLe (rows.insertionSort frameLe) :=
          List.sorted_insertionSort frameLe rows
        rw [hf]
        exact List.pairwise_map.mpr hs
      · intro row hrow kv hkv
        obtain ⟨q, hq, hq2⟩ := List.mem_map.mp hrow
        have hqrows : q ∈ rows := by
          rw [hf] at hq
          exact (List.perm_insertionSort frameLe rows).mem_iff.mp hq
        obtain ⟨r, _, hr⟩ := listMapM_option_mem hm q hqrows
        rw [← hq2] at hkv
        rw [rowIndexed_shape hr] at hkv
        exact mem_dremove_ne hkv

theorem frameExcept_ok {records : List JDict} {f : List (Nat × JDict)}
    (h : frameExcept records = Except.ok f) : make_frame records = some f := by
  unfold frameExcept at h
  rcases hm : make_frame records with _ | f'
  · rw [hm] at h
    exact Except.noConfusion h
  · rw [hm] at h
    have h2 : (Except.ok f' : Except ApiError (List (Nat × JDict))) = Except.ok f := h
    exact congrArg some (Except.ok.inj h2)

theorem player_frame_of_records {fetch : String → Response} {pid : Int}
    {season : String} {rs : List JDict} {f : List (Nat × JDict)}
    (hr : playerRecords fetch pid season = Except.ok rs)
    (hf : get_player_games_stats fetch pid season = Except.ok f) :
    make_frame rs = some f := by
  unfold get_player_games_stats at hf
  rw [hr, ok_bind] at hf
  exact frameExcept_ok hf

theorem schedule_frame_of_records {fetch : String → Response} {tid : Int}
    {season : String} {rs : List JDict} {g : List (Nat × JDict)}
    (hr : scheduleRecords fetch tid season = Except.ok rs)
    (hg : get_team_games_schedule fetch tid season = Except.ok g) :
    make_frame rs = some g := by
  unfold get_team_games_schedule at hg
  rw [hr, ok_bind] at hg
  exact frameExcept_ok hg

-- ===================================================================
-- C5, C6: the date index of the returned tables.
-- ===================================================================

/-- C6 (confirmed): whenever the two data-fetching functions succeed,
the index of the returned table consists of the parsed datetime `"date"`
fields of the records (one per record, as a permutation), sorted in
ascending order, and `"date"` does not remain as an ordinary column in
any row. -/
theorem claim_C6_date_index (fetchP fetchT : String → Response) (pid tid : Int)
    (seasonP seasonT : String) (rsP rsT : List JDict) (f g : List (Nat × JDict))
    (hrP : playerRecords fetchP pid seasonP = Except.ok rsP)
    (hf : get_player_games_stats fetchP pid seasonP = Except.ok f)
    (hrT : scheduleRecords fetchT tid seasonT = Except.ok rsT)
    (hg : get_team_games_schedule fetchT tid seasonT = Except.ok g) :
    ((∃ ds, recordDates rsP = some ds ∧ (f.map Prod.fst).Perm ds) ∧
      List.Sorted (fun a b : Nat => a ≤ b) (f.map Prod.fst) ∧
      ∀ row ∈ f.map Prod.snd, ∀ kv ∈ row, kv.1 ≠ "date") ∧
    ((∃ ds, recordDates rsT = some ds ∧ (g.map Prod.fst).Perm ds) ∧
      List.Sorted (fun a b : Nat => a ≤ b) (g.map Prod.fst) ∧
      ∀ row ∈ g.map Prod.snd, ∀ kv ∈ row, kv.1 ≠ "date") := by
  obtain ⟨ds, hd, hperm, hsort, hnd⟩ :=
    make_frame_spec (player_frame_of_records hrP hf)
  obtain ⟨ds2, hd2, hperm2, hsort2, hnd2⟩ :=
    make_frame_spec (schedule_frame_of_records hrT hg)
  exact ⟨⟨⟨ds, hd, hperm⟩, hsort, hnd⟩, ⟨⟨ds2, hd2, hperm2⟩, hsort2, hnd2⟩⟩

/-- C5 (amended): the date index of the returned tables is unique
provided the parsed dates of the underlying records are pairwise
distinct; the code sorts but never deduplicates, so distinctness of the
response's dates is required (`claim_C5_cex`). -/
theorem claim_C5_unique_date_index (fetchP fetchT : String → Response) (pid tid : Int)
    (seasonP seasonT : String) (rsP rsT : List JDict) (f g : List (Nat × JDict))
    (dsP dsT : List Nat)
    (hrP : playerRecords fetchP pid seasonP = Except.ok rsP)
    (hf : get_player_games_stats fetchP pid seasonP = Except.ok f)
    (hrT : scheduleRecords fetchT tid seasonT = Except.ok rsT)
    (hg : get_team_games_schedule fetchT tid seasonT = Except.ok g)
    (hdP : recordDates rsP = some dsP) (hnP : dsP.Nodup)
    (hdT : recordDates rsT = some dsT) (hnT : dsT.Nodup) :
    (f.map Prod.fst).Nodup ∧ (g.map Prod.fst).Nodup := by
  obtain ⟨ds, hd, hperm, _, _⟩ := make_frame_spec (player_frame_of_records hrP hf)
  obtain ⟨ds2, hd2, hperm2, _, _⟩ := make_frame_spec (schedule_frame_of_records hrT hg)
  constructor
  · rw [hdP] at hd
    rw [Option.some.inj hd] at hnP
    exact hperm.nodup_iff.mpr hnP
  · rw [hdT] at hd2
    rw [Option.some.inj hd2] at hnT
    exact hperm2.nodup_iff.mpr hnT

/-- Witness for C6 on concrete game-log and schedule responses. -/
theorem claim_C6_date_index_witness :
    playerRecords gameLogFetch 8471679 "20182019" = Except.ok
      [[("date", Json.str "2018-10-04"), ("goals", Json.num 1), ("assists", Json.num 2),
        ("opponent_name", Json.str "Boston Bruins")],
        [("date", Json.str "2018-10-03"), ("goals", Json.num 0), ("assists", Json.num 1),
          ("opponent_name", Json.str "Anaheim Ducks")]] ∧
    get_player_games_stats gameLogFetch 8471679 "20182019" = Except.ok
      [(20181003, [("goals", Json.num 0), ("assists", Json.num 1),
        ("opponent_name", Json.str "Anaheim Ducks")]),
        (20181004, [("goals", Json.num 1), ("assists", Json.num 2),
          ("opponent_name", Json.str "Boston Bruins")])] ∧
    scheduleRecords scheduleFetch 1 "20192020" = Except.ok
      [[("date", Json.str "2019-10-05"), ("gamePk", Json.num 102)],
        [("date", Json.str "2019-10-03"), ("gamePk", Json.num 101)]] ∧
    get_team_games_schedule scheduleFetch 1 "20192020" = Except.ok
      [(20191003, [("gamePk", Json.num 101)]), (20191005, [("gamePk", Json.num 102)])] ∧
    List.Sorted (fun a b : Nat => a ≤ b)
      (List.map Prod.fst
        ([(20181003, [("goals", Json.num 0), ("assists", Json.num 1),
          ("opponent_name", Json.str "Anaheim Ducks")]),
          (20181004, [("goals", Json.num 1), ("assists", Json.num 2),
            ("opponent_name", Json.str "Boston Bruins")])] : List (Nat × JDict))) := by
  have h1 : playerRecords gameLogFetch 8471679 "20182019" = Except.ok
      [[("date", Json.str "2018-10-04"), ("goals", Json.num 1), ("assists", Json.num 2),
        ("opponent_name", Json.str "Boston Bruins")],
        [("date", Json.str "2018-10-03"), ("goals", Json.num 0), ("assists", Json.num 1),
          ("opponent_name", Json.str "Anaheim Ducks")]] := rfl
  have h2 : get_player_games_stats gameLogFetch 8471679 "20182019" = Except.ok
      [(20181003, [("goals", Json.num 0), ("assists", Json.num 1),
        ("opponent_name", Json.str "Anaheim Ducks")]),
        (20181004, [("goals", Json.num 1), ("assists", Json.num 2),
          ("opponent_name", Json.str "Boston Bruins")])] := rfl
  have h3 : scheduleRecords scheduleFetch 1 "20192020" = Except.ok
      [[("date", Json.str "2019-10-05"), ("gamePk", Json.num 102)],
        [("date", Json.str "2019-10-03"), ("gamePk", Json.num 101)]] := by
    simp [scheduleRecords, scheduleFetch, scheduleBody, get_eq, jField, jArr, jObj,
      dlookup, listMapM, ok_bind, unroll_json, unrollItems_cons_leaf, unrollItems_nil,
      dupdate, dinsert, pkey, Json.isObj]
  have h4 : get_team_games_schedule scheduleFetch 1 "20192020" = Except.ok
      [(20191003, [("gamePk", Json.num 101)]), (20191005, [("gamePk", Json.num 102)])] := by
    rw [show get_team_games_schedule scheduleFetch 1 "20192020" =
      scheduleRecords scheduleFetch 1 "20192020" >>= frameExcept from rfl, h3, ok_bind]
    rfl
  exact ⟨h1, h2, h3, h4,
    (claim_C6_date_index gameLogFetch scheduleFetch 8471679 1 "20182019" "20192020"
      _ _ _ _ h1 h2 h3 h4).1.2.1⟩

/-- Witness for C5 on responses whose records carry pairwise-distinct
dates: both returned indexes are duplicate-free. -/
theorem claim_C5_unique_date_index_witness :
    recordDates
      [[("date", Json.str "2018-10-04"), ("goals", Json.num 1), ("assists", Json.num 2),
        ("opponent_name", Json.str "Boston Bruins")],
        [("date", Json.str "2018-10-03"), ("goals", Json.num 0), ("assists", Json.num 1),
          ("opponent_name", Json.str "Anaheim Ducks")]] = some [20181004, 20181003] ∧
    ([20181004, 20181003] : List Nat).Nodup ∧
    recordDates
      [[("date", Json.str "2019-10-05"), ("gamePk", Json.num 102)],
        [("date", Json.str "2019-10-03"), ("gamePk", Json.num 101)]] =
      some [20191005, 20191003] ∧
    ([20191005, 20191003] : List Nat).Nodup ∧
    (List.map Prod.fst
      ([(20181003, [("goals", Json.num 0), ("assists", Json.num 1),
        ("opponent_name", Json.str "Anaheim Ducks")]),
        (20181004, [("goals", Json.num 1), ("assists", Json.num 2),
          ("opponent_name", Json.str "Boston Bruins")])] : List (Nat × JDict))).Nodup ∧
    (List.map Prod.fst
      ([(20191003, [("gamePk", Json.num 101)]),
        (20191005, [("gamePk", Json.num 102)])] : List (Nat × JDict))).Nodup := by
  have h1 : playerRecords gameLogFetch 8471679 "20182019" = Except.ok
      [[("date", Json.str "2018-10-04"), ("goals", Json.num 1), ("assists", Json.num 2),
        ("opponent_name", Json.str "Boston Bruins")],
        [("date", Json.str "2018-10-03"), ("goals", Json.num 0), ("assists", Json.num 1),
          ("opponent_name", Json.str "Anaheim Ducks")]] := rfl
  have h2 : get_player_games_stats gameLogFetch 8471679 "20182019" = Except.ok
      [(20181003, [("goals", Json.num 0), ("assists", Json.num 1),
        ("opponent_name", Json.str "Anaheim Ducks")]),
        (20181004, [("goals", Json.num 1), ("assists", Json.num 2),
          ("opponent_name", Json.str "Boston Bruins")])] := rfl
  have h3 : scheduleRecords scheduleFetch 1 "20192020" = Except.ok
      [[("date", Json.str "2019-10-05"), ("gamePk", Json.num 102)],
        [("date", Json.str "2019-10-03"), ("gamePk", Json.num 101)]] := by
    simp [scheduleRecords, scheduleFetch, scheduleBody, get_eq, jField, jArr, jObj,
      dlookup, listMapM, ok_bind, unroll_json, unrollItems_cons_leaf, unrollItems_nil,
      dupdate, dinsert, pkey, Json.isObj]
  have h4 : get_team_games_schedule scheduleFetch 1 "20192020" = Except.ok
      [(20191003, [("gamePk", Json.num 101)]), (20191005, [("gamePk", Json.num 102)])] := by
    rw [show get_team_games_schedule scheduleFetch 1 "20192020" =
      scheduleRecords scheduleFetch 1 "20192020" >>= frameExcept from rfl, h3, ok_bind]
    rfl
  have hc := claim_C5_unique_date_index gameLogFetch scheduleFetch 8471679 1
    "20182019" "20192020" _ _ _ _ [20181004, 20181003] [20191005, 20191003]
    h1 h2 h3 h4 rfl (by decide) rfl (by decide)
  exact ⟨rfl, by decide, rfl, by decide, hc.1, hc.2⟩

/-- Counterexample to C5 as frozen: a schedule response with two games on
the same date yields a table whose date index contains `2020-01-01`
twice — the code sorts the index but never deduplicates it (and the same
holds for `get_player_games_stats` on two splits sharing a date). -/
theorem claim_C5_cex :
    (get_team_games_schedule scheduleFetchDup 1 "20192020").map
        (fun fr => fr.map Prod.fst) =
      Except.ok [20200101, 20200101] ∧
    ¬ ([20200101, 20200101] : List Nat).Nodup := by
  constructor
  · have h3 : scheduleRecords scheduleFetchDup 1 "20192020" = Except.ok
        [[("date", Json.str "2020-01-01"), ("gamePk", Json.num 101)],
          [("date", Json.str "2020-01-01"), ("gamePk", Json.num 102)]] := by
      simp [scheduleRecords, scheduleFetchDup, scheduleBodyDup, get_eq, jField, jArr,
        jObj, dlookup, listMapM, ok_bind, unroll_json, unrollItems_cons_leaf,
        unrollItems_nil, dupdate, dinsert, pkey, Json.isObj]
    rw [show get_team_games_schedule scheduleFetchDup 1 "20192020" =
      scheduleRecords scheduleFetchDup 1 "20192020" >>= frameExcept from rfl, h3, ok_bind]
    rfl
  · decide

-- ===================================================================
-- C7: the URL builders.
-- ===================================================================

theorem str_append_assoc (a b c : String) : a ++ b ++ c = a ++ (b ++ c) := by
  apply String.ext
  simp [String.data_append]

theorem append_left_lit {a b c : String} (h : a ++ b = c) (x : String) :
    a ++ (b ++ x) = c ++ x := by
  rw [← str_append_assoc, h]

theorem digitChar_ne_slash : ∀ d : Nat, digitChar d ≠ '/'
  | 0 => by decide
  | 1 => by decide
  | 2 => by decide
  | 3 => by decide
  | 4 => by decide
  | 5 => by decide
  | 6 => by decide
  | 7 => by decide
  | 8 => by decide
  | 9 => by decide
  | (_ + 10) => by
    show ('?' : Char) ≠ '/'
    decide

theorem natStrGo_head : ∀ fuel n acc, ∃ d cs, natStrGo fuel n acc = digitChar d :: cs := by
  intro fuel
  induction fuel with
  | zero =>
    intro n acc
    exact ⟨n % 10, acc, rfl⟩
  | succ fuel ih =>
    intro n acc
    by_cases hn : n < 10
    · exact ⟨n % 10, acc, by rw [natStrGo, if_pos hn]⟩
    · obtain ⟨d, cs, hgo⟩ := ih (n / 10) (digitChar (n % 10) :: acc)
      exact ⟨d, cs, by rw [natStrGo, if_neg hn]; exact hgo⟩

theorem natStrGo_chars : ∀ fuel n acc c, c ∈ natStrGo fuel n acc →
    (∃ d, c = digitChar d) ∨ c ∈ acc := by
  intro fuel
  induction fuel with
  | zero =>
    intro n acc c hc
    rw [natStrGo] at hc
    rcases List.mem_cons.mp hc with h | h
    · exact Or.inl ⟨n % 10, h⟩
    · exact Or.inr h
  | succ fuel ih =>
    intro n acc c hc
    rw [natStrGo] at hc
    by_cases hn : n < 10
    · rw [if_pos hn] at hc
      rcases List.mem_cons.mp hc with h | h
      · exact Or.inl ⟨n % 10, h⟩
      · exact Or.inr h
    · rw [if_neg hn] at hc
      rcases ih (n / 10) _ c hc with h | h
      · exact Or.inl h
      · rcases List.mem_cons.mp h with h2 | h2
        · exact Or.inl ⟨n % 10, h2⟩
        · exact Or.inr h2

theorem pyStrNat_chars (n : Nat) : ∀ c ∈ (pyStrNat n).data, c ≠ '/' := by
  intro c hc
  rcases natStrGo_chars n n [] c hc with ⟨d, rfl⟩ | h
  · exact digitChar_ne_slash d
  · simp at h

theorem pyStrNat_data_ne_nil (n : Nat) : (pyStrNat n).data ≠ [] := by
  obtain ⟨d, cs, hgo⟩ := natStrGo_head n n []
  show natStrGo n n [] ≠ []
  rw [hgo]
  exact List.cons_ne_nil _ _

theorem pyStrInt_chars (i : Int) : ∀ c ∈ (pyStrInt i).data, c ≠ '/' := by
  cases i with
  | ofNat m => exact pyStrNat_chars m
  | negSucc m =>
    intro c hc
    have hc2 : c ∈ ("-".data ++ (pyStrNat (m + 1)).data) := by
      rw [← String.data_append]
      exact hc
    rcases List.mem_append.mp hc2 with h | h
    · have hdash : c = '-' := by simpa using h
      rw [hdash]
      decide
    · exact pyStrNat_chars (m + 1) c h

theorem pyStrInt_data_ne_nil (i : Int) : (pyStrInt i).data ≠ [] := by
  cases i with
  | ofNat m => exact pyStrNat_data_ne_nil m
  | negSucc m =>
    show ("-" ++ pyStrNat (m + 1)).data ≠ []
    rw [String.data_append]
    intro hc
    exact pyStrNat_data_ne_nil (m + 1) (List.append_eq_nil.mp hc).2

theorem getLast?_mem_own {α : Type} : ∀ {l : List α} {c : α}, l.getLast? = some c → c ∈ l := by
  intro l
  induction l with
  | nil =>
    intro c h
    simp at h
  | cons x xs ih =>
    intro c h
    cases xs with
    | nil =>
      simp only [List.getLast?_singleton, Option.some.injEq] at h
      simp [h]
    | cons y ys =>
      rw [List.getLast?_cons_cons] at h
      exact List.mem_cons_of_mem _ (ih h)

theorem getLast?_isSome_own {α : Type} : ∀ {l : List α}, l ≠ [] → ∃ c, l.getLast? = some c := by
  intro l
  induction l with
  | nil =>
    intro h
    exact absurd rfl h
  | cons x xs ih =>
    intro _
    cases hxs : xs with
    | nil => exact ⟨x, by simp⟩
    | cons y ys =>
      obtain ⟨c, hc⟩ := ih (by rw [hxs]; exact List.cons_ne_nil _ _)
      rw [hxs] at hc
      exact ⟨c, by rw [List.getLast?_cons_cons]; exact hc⟩

theorem startsWithSlash_append {s t : String} (h : startsWithSlash s = false)
    (hne : s.data ≠ []) : startsWithSlash (s ++ t) = false := by
  unfold startsWithSlash at h ⊢
  rw [String.data_append]
  rcases hd : s.data with _ | ⟨c, cs⟩
  · exact absurd hd hne
  · rw [hd] at h
    show (c == '/') = false
    exact h

theorem startsWithSlash_pyStrInt (i : Int) : startsWithSlash (pyStrInt i) = false := by
  unfold startsWithSlash
  rcases hd : (pyStrInt i).data with _ | ⟨c, cs⟩
  · rfl
  · have hc : c ∈ (pyStrInt i).data := by
      rw [hd]
      exact List.mem_cons_self _ _
    exact beq_eq_false_iff_ne.mpr (pyStrInt_chars i c hc)

theorem endsWithSlash_append_pyStrInt (s : String) (i : Int) :
    endsWithSlash (s ++ pyStrInt i) = false := by
  unfold endsWithSlash
  rw [String.data_append, List.getLast?_append]
  obtain ⟨c, hc⟩ := getLast?_isSome_own (pyStrInt_data_ne_nil i)
  rw [hc]
  show (c == '/') = false
  exact beq_eq_false_iff_ne.mpr (pyStrInt_chars i c (getLast?_mem_own hc))

theorem data_append_ne_nil_left (s t : String) (h : s.data ≠ []) : (s ++ t).data ≠ [] := by
  rw [String.data_append]
  intro hc
  exact h (List.append_eq_nil.mp hc).1

theorem beq_empty_false {s : String} (h : s.data ≠ []) : (s == "") = false :=
  beq_eq_false_iff_ne.mpr (fun he => h (by rw [he]))

theorem path_join_sep {a b : String} (hb : startsWithSlash b = false)
    (ha0 : (a == "") = false) (ha : endsWithSlash a = false) :
    path_join a b = a ++ "/" ++ b := by
  unfold path_join
  rw [hb, ha0, ha]
  simp

theorem path_join_nosep {a b : String} (hb : startsWithSlash b = false)
    (ha : endsWithSlash a = true) :
    path_join a b = a ++ b := by
  unfold path_join
  rw [hb, ha]
  simp

theorem data_append_ne_nil_right (s t : String) (h : t.data ≠ []) : (s ++ t).data ≠ [] := by
  rw [String.data_append]
  intro hc
  exact h (List.append_eq_nil.mp hc).2

/-- C7 (confirmed): every URL builder is a pure function of its
arguments whose result is the fixed base followed by an explicit
path-and-query template; in particular `get_schedule_for_team_url`
embeds `season[:4]` as the `startDate` year and `season[4:]` as the
`endDate` year, both with month-day `-09-01`. -/
theorem claim_C7_url_builders (team_id player_id : Int) (season : String)
    (_hseason : season.length = 8) :
    get_team_url = BASE_URL ++ "teams" ∧
    get_roster_url team_id = BASE_URL ++ "teams/" ++ pyStrInt team_id ++
      "?expand=team.roster" ∧
    get_player_url player_id = BASE_URL ++ "people/" ++ pyStrInt player_id ∧
    get_player_games_stats_url player_id season = BASE_URL ++ "people/" ++
      pyStrInt player_id ++ "/stats?stats=gameLog&season=" ++ season ∧
    get_schedule_url = BASE_URL ++ "schedule" ∧
    get_schedule_for_team_url team_id season = BASE_URL ++ "schedule/?teamId=" ++
      pyStrInt team_id ++ "&startDate=" ++ strTake season 4 ++ "-09-01&endDate=" ++
      strDrop season 4 ++ "-09-01" := by
  have t1 : get_team_url = "https://statsapi.web.nhl.com/api/v1/teams" := by decide
  have t5 : get_schedule_url = "https://statsapi.web.nhl.com/api/v1/schedule" := by decide
  have u1 : get_team_url = BASE_URL ++ "teams" := by
    rw [t1]
    decide
  have u5 : get_schedule_url = BASE_URL ++ "schedule" := by
    rw [t5]
    decide
  have u2 : get_roster_url team_id = BASE_URL ++ "teams/" ++ pyStrInt team_id ++
      "?expand=team.roster" := by
    have hb : startsWithSlash (pyStrInt team_id ++ "?expand=team.roster") = false :=
      startsWithSlash_append (startsWithSlash_pyStrInt team_id)
        (pyStrInt_data_ne_nil team_id)
    calc get_roster_url team_id
        = path_join "https://statsapi.web.nhl.com/api/v1/teams"
            (pyStrInt team_id ++ "?expand=team.roster") := by
          rw [show get_roster_url team_id = path_join get_team_url
            (pyStrInt team_id ++ "?expand=team.roster") from rfl, t1]
      _ = "https://statsapi.web.nhl.com/api/v1/teams" ++ "/" ++
            (pyStrInt team_id ++ "?expand=team.roster") :=
          path_join_sep hb (by decide) (by decide)
      _ = BASE_URL ++ "teams/" ++ pyStrInt team_id ++ "?expand=team.roster" := by
          simp only [str_append_assoc]
          rw [append_left_lit (show ("https://statsapi.web.nhl.com/api/v1/teams" :
              String) ++ "/" = "https://statsapi.web.nhl.com/api/v1/teams/" by decide),
            append_left_lit (show (BASE_URL : String) ++ "teams/" =
              "https://statsapi.web.nhl.com/api/v1/teams/" by decide)]
  have u3 : get_player_url player_id = BASE_URL ++ "people/" ++ pyStrInt player_id := by
    have hb : startsWithSlash ("people/" ++ pyStrInt player_id) = false :=
      startsWithSlash_append (by decide) (by decide)
    calc get_player_url player_id
        = BASE_URL ++ ("people/" ++ pyStrInt player_id) :=
          path_join_nosep hb (by decide)
      _ = BASE_URL ++ "people/" ++ pyStrInt player_id := (str_append_assoc _ _ _).symm
  have u4 : get_player_games_stats_url player_id season = BASE_URL ++ "people/" ++
      pyStrInt player_id ++ "/stats?stats=gameLog&season=" ++ season := by
    have hb : startsWithSlash ("stats?stats=gameLog&season=" ++ season) = false :=
      startsWithSlash_append (by decide) (by decide)
    have ha0 : ((BASE_URL ++ "people/" ++ pyStrInt player_id : String) == "") = false :=
      beq_empty_false (data_append_ne_nil_right _ _ (pyStrInt_data_ne_nil player_id))
    have ha : endsWithSlash (BASE_URL ++ "people/" ++ pyStrInt player_id) = false :=
      endsWithSlash_append_pyStrInt (BASE_URL ++ "people/") player_id
    calc get_player_games_stats_url player_id season
        = path_join (BASE_URL ++ "people/" ++ pyStrInt player_id)
            ("stats?stats=gameLog&season=" ++ season) := by
          rw [show get_player_games_stats_url player_id season =
            path_join (get_player_url player_id)
              ("stats?stats=gameLog&season=" ++ season) from rfl, u3]
      _ = BASE_URL ++ "people/" ++ pyStrInt player_id ++ "/" ++
            ("stats?stats=gameLog&season=" ++ season) := path_join_sep hb ha0 ha
      _ = BASE_URL ++ "people/" ++ pyStrInt player_id ++
            "/stats?stats=gameLog&season=" ++ season := by
          simp only [str_append_assoc]
          rw [append_left_lit (show ("/" : String) ++ "stats?stats=gameLog&season=" =
            "/stats?stats=gameLog&season=" by decide)]
  have u6 : get_schedule_for_team_url team_id season = BASE_URL ++ "schedule/?teamId=" ++
      pyStrInt team_id ++ "&startDate=" ++ strTake season 4 ++ "-09-01&endDate=" ++
      strDrop season 4 ++ "-09-01" := by
    have n1 : ("?teamId=" ++ pyStrInt team_id).data ≠ [] :=
      data_append_ne_nil_left _ _ (by decide)
    have s1 : startsWithSlash ("?teamId=" ++ pyStrInt team_id) = false :=
      startsWithSlash_append (by decide) (by decide)
    have n2 : ("?teamId=" ++ pyStrInt team_id ++ "&startDate=").data ≠ [] :=
      data_append_ne_nil_left _ _ n1
    have s2 : startsWithSlash ("?teamId=" ++ pyStrInt team_id ++ "&startDate=") = false :=
      startsWithSlash_append s1 n1
    have n3 : ("?teamId=" ++ pyStrInt team_id ++ "&startDate=" ++
        strTake season 4).data ≠ [] := data_append_ne_nil_left _ _ n2
    have s3 : startsWithSlash ("?teamId=" ++ pyStrInt team_id ++ "&startDate=" ++
        strTake season 4) = false := startsWithSlash_append s2 n2
    have n4 : ("?teamId=" ++ pyStrInt team_id ++ "&startDate=" ++ strTake season 4 ++
        "-09-01&endDate=").data ≠ [] := data_append_ne_nil_left _ _ n3
    have s4 : startsWithSlash ("?teamId=" ++ pyStrInt team_id ++ "&startDate=" ++
        strTake season 4 ++ "-09-01&endDate=") = false := startsWithSlash_append s3 n3
    have n5 : ("?teamId=" ++ pyStrInt team_id ++ "&startDate=" ++ strTake season 4 ++
        "-09-01&endDate=" ++ strDrop season 4).data ≠ [] :=
      data_append_ne_nil_left _ _ n4
    have s5 : startsWithSlash ("?teamId=" ++ pyStrInt team_id ++ "&startDate=" ++
        strTake season 4 ++ "-09-01&endDate=" ++ strDrop season 4) = false :=
      startsWithSlash_append s4 n4
    have hb : startsWithSlash ("?teamId=" ++ pyStrInt team_id ++ "&startDate=" ++
        strTake season 4 ++ "-09-01&endDate=" ++ strDrop season 4 ++ "-09-01") = false :=
      startsWithSlash_append s5 n5
    calc get_schedule_for_team_url team_id season
        = path_join "https://statsapi.web.nhl.com/api/v1/schedule"
            ("?teamId=" ++ pyStrInt team_id ++ "&startDate=" ++ strTake season 4 ++
              "-09-01&endDate=" ++ strDrop season 4 ++ "-09-01") := by
          rw [show get_schedule_for_team_url team_id season = path_join get_schedule_url
            ("?teamId=" ++ pyStrInt team_id ++ "&startDate=" ++ strTake season 4 ++
              "-09-01&endDate=" ++ strDrop season 4 ++ "-09-01") from rfl, t5]
      _ = "https://statsapi.web.nhl.com/api/v1/schedule" ++ "/" ++
            ("?teamId=" ++ pyStrInt team_id ++ "&startDate=" ++ strTake season 4 ++
              "-09-01&endDate=" ++ strDrop season 4 ++ "-09-01") :=
          path_join_sep hb (by decide) (by decide)
      _ = BASE_URL ++ "schedule/?teamId=" ++ pyStrInt team_id ++ "&startDate=" ++
            strTake season 4 ++ "-09-01&endDate=" ++ strDrop season 4 ++ "-09-01" := by
          simp only [str_append_assoc]
          rw [append_left_lit (show ("https://statsapi.web.nhl.com/api/v1/schedule" :
              String) ++ "/" = "https://statsapi.web.nhl.com/api/v1/schedule/" by decide),
            append_left_lit (show ("https://statsapi.web.nhl.com/api/v1/schedule/" :
              String) ++ "?teamId=" =
              "https://statsapi.web.nhl.com/api/v1/schedule/?teamId=" by decide),
            append_left_lit (show (BASE_URL : String) ++ "schedule/?teamId=" =
              "https://statsapi.web.nhl.com/api/v1/schedule/?teamId=" by decide)]
  exact ⟨u1, u2, u3, u4, u5, u6⟩

/-- Witness for C7 at concrete ids and the season `"20182019"`. -/
theorem claim_C7_url_builders_witness :
    ("20182019" : String).length = 8 ∧
    get_schedule_for_team_url 8 "20182019" = BASE_URL ++ "schedule/?teamId=" ++
      pyStrInt 8 ++ "&startDate=" ++ strTake "20182019" 4 ++ "-09-01&endDate=" ++
      strDrop "20182019" 4 ++ "-09-01" :=
  ⟨by decide, (claim_C7_url_builders 8 8471679 "20182019" (by decide)).2.2.2.2.2⟩
